import Mathlib

/-!
Verification of the tdkeys keyboard placement engine.

Shallow embedding of the repository sources:
  * `src/logo/edit.py`       — SVG circle utility (`generate_corner_circles`)
  * `src/scripts/truth.py`   — parameter store (`truth`)
  * `src/scripts/kicad.py`   — placement engine (`switch_placement`)

Numbers are modelled exactly: rationals for the parameter-driven arithmetic
(Python floats here only carry decimal constants), and a general linear
ordered field for the generic engine, instantiated at the reals where the
trigonometric thumb-cluster placement is concerned.  The pcbnew board object
is modelled as explicit state (a list of footprints and a list of drawings),
with the operations the script uses: find-by-reference, set position, set
orientation, enumerate/remove/add drawings.  KiCAD internal units are
nanometres; `pcbnew.FromMM` scales mm into them and `pcbnew.ToMM` divides by
10^6, which the model keeps (positions are stored in mm; the one place the
script applies `ToMM` to a mm quantity is kept verbatim).
-/

namespace TDKeys

/-! ### logo/edit.py : corner-circle generation -/

/-- A circle record as used by `edit.py`: required keys `cx`, `cy`, `r`,
optional presentation keys copied through by `generate_corner_circles`. -/
structure Circle where
  cx : ℚ
  cy : ℚ
  r : ℚ
  fill : Option String := none
  stroke : Option String := none
  stroke_width : Option ℚ := none
deriving DecidableEq

/-- The four corner offsets, in the order the source lists them:
top-left, top-right, bottom-left, bottom-right (offset = grid_size / 2). -/
def corners (grid_size : ℚ) : List (ℚ × ℚ) :=
  [(-(grid_size / 2), -(grid_size / 2)), (grid_size / 2, -(grid_size / 2)),
   (-(grid_size / 2), grid_size / 2), (grid_size / 2, grid_size / 2)]

/-- The new circle built for one input circle at one corner offset:
radius divided by `radius_factor`, optional properties copied through. -/
def cornerCircle (radius_factor : ℚ) (c : Circle) (d : ℚ × ℚ) : Circle :=
  { cx := c.cx + d.1, cy := c.cy + d.2, r := c.r / radius_factor,
    fill := c.fill, stroke := c.stroke, stroke_width := c.stroke_width }

/-- All candidate corner circles, in generation order: for each input circle
(in list order), its four corner circles (in corner order). -/
def generatedCircles (circles : List Circle) (grid_size radius_factor : ℚ) :
    List Circle :=
  circles.flatMap fun c => (corners grid_size).map (cornerCircle radius_factor c)

/-- One step of the `new_circles` dict update: if the position key is already
present, replace the stored circle only when the new radius is strictly
larger; otherwise append the new key at the end (Python dict semantics). -/
def dictInsert : List ((ℚ × ℚ) × Circle) → Circle → List ((ℚ × ℚ) × Circle)
  | [], c => [((c.cx, c.cy), c)]
  | (q, old) :: rest, c =>
    if q = (c.cx, c.cy) then
      (if c.r > old.r then (q, c) else (q, old)) :: rest
    else (q, old) :: dictInsert rest c

/-- First-match association lookup (Python `position in new_circles` /
`new_circles[position]`). -/
def lookupPos : List ((ℚ × ℚ) × Circle) → ℚ × ℚ → Option Circle
  | [], _ => none
  | (q, c) :: rest, p => if q = p then some c else lookupPos rest p

/-- `generate_corner_circles(circles, grid_size, radius_factor)` from
`edit.py`: build every corner circle, deduplicate by exact position keeping
the strictly larger radius, and return the dict's values. -/
def generate_corner_circles (circles : List Circle)
    (grid_size radius_factor : ℚ) : List Circle :=
  (((generatedCircles circles grid_size radius_factor).foldl dictInsert []).map
    Prod.snd)

/-- The selection rule claimed for position collisions: scanning the
candidates in generation order, keep the incumbent unless the newcomer's
radius is strictly larger (so exact ties retain the earlier circle). -/
def keepLargest (l : List Circle) : Option Circle :=
  l.foldl
    (fun acc c =>
      match acc with
      | none => some c
      | some b => if c.r > b.r then some c else some b)
    none

/-! ### Board model (the pcbnew collaborator used by scripts/kicad.py) -/

/-- A component footprint: reference string, board-space position (mm),
orientation (degrees). -/
structure Footprint (K : Type) where
  ref : String
  pos : K × K
  orient : K
deriving DecidableEq

/-- A drawing primitive; the engine only creates line segments
(start point, end point, layer, stroke width in mm, comment tag). -/
structure Drawing (K : Type) where
  start : K × K
  stop : K × K
  layer : String
  width : K
  comment : String
deriving DecidableEq

/-- The live board: footprints and drawings. -/
structure Board (K : Type) where
  footprints : List (Footprint K)
  drawings : List (Drawing K)
deriving DecidableEq

/-- `FindFootprintByReference`: first footprint carrying the reference. -/
def findRef {K : Type} : List (Footprint K) → String → Option (Footprint K)
  | [], _ => none
  | f :: l, r => if f.ref = r then some f else findRef l r

/-- Mutate the first footprint carrying the reference (the handle returned by
`FindFootprintByReference`), leaving the rest of the list alone. -/
def updateFirst {K : Type} :
    List (Footprint K) → String → (Footprint K → Footprint K) →
      List (Footprint K)
  | [], _, _ => []
  | f :: l, r, g => if f.ref = r then g f :: l else f :: updateFirst l r g

/-- Truthiness of the `FindFootprintByReference` result. -/
def Board.hasRef {K : Type} (b : Board K) (r : String) : Bool :=
  (findRef b.footprints r).isSome

/-- `handle.SetPosition(...)` for the footprint found under `r`. -/
def Board.setPos {K : Type} (b : Board K) (r : String) (p : K × K) :
    Board K :=
  { b with footprints := updateFirst b.footprints r fun f => { f with pos := p } }

/-- `handle.SetOrientation(EDA_ANGLE(a, DEGREES_T))` for the footprint found
under `r`. -/
def Board.setOrient {K : Type} (b : Board K) (r : String) (a : K) : Board K :=
  { b with footprints := updateFirst b.footprints r fun f => { f with orient := a } }

/-- Observed position of the footprint under `r`, if present. -/
def Board.posOf {K : Type} (b : Board K) (r : String) : Option (K × K) :=
  (findRef b.footprints r).map Footprint.pos

/-- Observed orientation of the footprint under `r`, if present. -/
def Board.orientOf {K : Type} (b : Board K) (r : String) : Option K :=
  (findRef b.footprints r).map Footprint.orient

/-! ### scripts/truth.py : the parameter store -/

/-- The ten required parameters (values only; the unit tags carried by
`Param` are never read by the engine). -/
structure Params (K : Type) where
  switchSpacing : K
  frameBorder : K
  col0 : K
  col1 : K
  col2 : K
  col3 : K
  col4 : K
  col5 : K
  thumbRadius : K
  thumbRotationAngle : K
deriving DecidableEq

/-- `truth()` from `truth.py`: the concrete parameter set of the repository. -/
def truth : Params ℚ :=
  { switchSpacing := 19.50, frameBorder := 5,
    col0 := 0, col1 := 4, col2 := 10, col3 := 17, col4 := 12, col5 := 9,
    thumbRadius := 92.28, thumbRotationAngle := -12 }

/-- View of a full parameter set as the string-keyed dictionary the engine
reads (`params['X'].val`); a map may instead lack keys, modelling a
parameter set from which a required key is absent. -/
def Params.toMap {K : Type} (p : Params K) : String → Option K := fun s =>
  if s = "FrameBorder" then some p.frameBorder
  else if s = "SwitchSpacing" then some p.switchSpacing
  else if s = "Col0Offset" then some p.col0
  else if s = "Col1Offset" then some p.col1
  else if s = "Col2Offset" then some p.col2
  else if s = "Col3Offset" then some p.col3
  else if s = "Col4Offset" then some p.col4
  else if s = "Col5Offset" then some p.col5
  else if s = "ThumbRadius" then some p.thumbRadius
  else if s = "ThumbRotationAngle" then some p.thumbRotationAngle
  else none

/-- The per-column offsets in index order, as read into `col_offsets`. -/
def colList {K : Type} (p : Params K) : List K :=
  [p.col0, p.col1, p.col2, p.col3, p.col4, p.col5]

/-! ### scripts/kicad.py : the placement engine -/

section Engine

variable {K : Type} [LinearOrderedField K]

/-- The tag marking engine-generated border segments. -/
def marker : String := "AUTO_GENERATED_BORDER"

/-- `pcbnew.ToMM`: KiCAD internal units are nanometres, so this divides by
10^6.  The script applies it to the mm constant `diode_offset` when placing
D19 and D20. -/
def pcbnew_ToMM (v : K) : K := v / 1000000

/-- Reference string of switch `n`. -/
def swRef (n : ℕ) : String := "SW" ++ toString n

/-- Reference string of diode `n`. -/
def dRef (n : ℕ) : String := "D" ++ toString n

/-- Border cleanup (lines 18-20): remove every drawing whose comment is
exactly the marker. -/
def removeBorders (b : Board K) : Board K :=
  { b with drawings := b.drawings.filter fun d => decide (d.comment ≠ marker) }

/-- One grid iteration (lines 46-79) at column `cr.1`, row `cr.2`; the
running `switch_num` counter equals `cr.1 * 3 + cr.2 + 1` there.  The
x value already includes the page offset 40; the stored y is the design y
negated plus 120.  The diode is handled inside the switch-found branch and
gets the raw mm offset 8 added to the stored y. -/
def gridStep (fb ss : K) (co : List K) (b : Board K) (cr : ℕ × ℕ) : Board K :=
  let n := cr.1 * 3 + cr.2 + 1
  let x : K := fb + (cr.1 : K) * ss + 40
  let y : K := fb + (cr.2 : K) * ss + co.getD cr.1 0
  if b.hasRef (swRef n) then
    let b1 := b.setPos (swRef n) (x, -y + 120)
    if b1.hasRef (dRef n) then b1.setPos (dRef n) (x, -y + 120 + 8) else b1
  else b

/-- The iteration order of the grid loops: columns 0..5 outer, rows 0..2
inner. -/
def gridPairs : List (ℕ × ℕ) :=
  (List.range 6).flatMap fun c => (List.range 3).map fun r => (c, r)

/-- The whole grid placement (SW1..SW18 and D1..D18). -/
def placeGrid (fb ss : K) (co : List K) (b : Board K) : Board K :=
  gridPairs.foldl (gridStep fb ss co) b

/-- One offset thumb switch (the SW20 block, lines 87-106, and the parallel
SW19 block, lines 112-131): place the switch at the given design position,
then its diode with `pcbnew.ToMM(diode_offset)` added to the stored y —
verbatim from the source, which converts the already-mm constant again. -/
def offsetStep (xpos ypos : K) (n : ℕ) (b : Board K) : Board K :=
  if b.hasRef (swRef n) then
    let b1 := b.setPos (swRef n) (xpos, -ypos + 120)
    if b1.hasRef (dRef n) then
      b1.setPos (dRef n) (xpos, -ypos + 120 + pcbnew_ToMM 8)
    else b1
  else b

/-- The two offset thumb switches: SW20 first (column 5 position), then SW19
(column 4 position, same y). -/
def placeOffsets (fb ss : K) (co : List K) (b : Board K) : Board K :=
  let sw20x := fb + 5 * ss + 40
  let sw20y := fb - ss + co.getD 5 0
  let b1 := offsetStep sw20x sw20y 20 b
  let sw19x := fb + 4 * ss + 40
  offsetStep sw19x sw20y 19 b1

/-- One circular thumb iteration (lines 145-180), `i = 0` for SW21 and
`i = 1` for SW22: angle `90 + (i+1) * ThumbRotationAngle` degrees, position
on the circle, orientation set to the angle; the diode moves a further 8 mm
radially outward and receives the same orientation.  `cosd`/`sind` stand for
`math.cos`/`math.sin` composed with `math.radians`. -/
def circStep (cosd sind : K → K) (R A ccx ccy : K) (b : Board K) (i : ℕ) :
    Board K :=
  let angle := 90 + ((i : K) + 1) * A
  let x := ccx + R * cosd angle
  let y := ccy + R * sind angle
  let n := 21 + i
  if b.hasRef (swRef n) then
    let b1 := (b.setPos (swRef n) (x, -y + 120)).setOrient (swRef n) angle
    if b1.hasRef (dRef n) then
      ((b1.setPos (dRef n)
          (x + 8 * cosd angle, -(y + 8 * sind angle) + 120)).setOrient
        (dRef n) angle)
    else b1
  else b

/-- The circular thumb cluster: circle centred `ThumbRadius` below SW20's
design position, iterating `enumerate([21, 22])`. -/
def placeCirc (cosd sind : K → K) (fb ss : K) (co : List K) (R A : K)
    (b : Board K) : Board K :=
  let ccx := fb + 5 * ss + 40
  let ccy := (fb - ss + co.getD 5 0) - R
  [0, 1].foldl (circStep cosd sind R A ccx ccy) b

/-- The four border segments (lines 184-209): a rectangle of width
`2*FrameBorder + 5*SwitchSpacing` and height
`2*FrameBorder + 2*SwitchSpacing + |circle_center_y - FrameBorder|`,
drawn top, right, bottom, left, each with stroke width 0.15 mm on Edge.Cuts
and tagged with the marker. -/
def borderSegments (fb ss ccy : K) : List (Drawing K) :=
  let w := 2 * fb + 5 * ss
  let h := 2 * fb + 2 * ss + |ccy - fb|
  let x0 : K := 40
  let y0 : K := 120
  let x1 := w + 40
  let y1 := 120 - h
  [{ start := (x0, y0), stop := (x1, y0), layer := "Edge_Cuts",
     width := 0.15, comment := marker },
   { start := (x1, y0), stop := (x1, y1), layer := "Edge_Cuts",
     width := 0.15, comment := marker },
   { start := (x1, y1), stop := (x0, y1), layer := "Edge_Cuts",
     width := 0.15, comment := marker },
   { start := (x0, y1), stop := (x0, y0), layer := "Edge_Cuts",
     width := 0.15, comment := marker }]

/-- `board.Add(line)` for each border segment, in order. -/
def addBorder (fb ss ccy : K) (b : Board K) : Board K :=
  { b with drawings := b.drawings ++ borderSegments fb ss ccy }

/-- `switch_placement()` over a possibly-incomplete parameter dictionary.
Reads happen exactly where the source reads them: the border cleanup runs
first, then `FrameBorder`, `SwitchSpacing` and the six column offsets are
read (lines 23-35) before any footprint is touched, the grid and the two
offset switches are placed, and only then are `ThumbRadius` and
`ThumbRotationAngle` read (lines 134-135) before the circular cluster and
the border.  A missing key aborts at its read (`KeyError`), returning the
board as mutated so far together with the offending key. -/
def switch_placement (cosd sind : K → K) (pm : String → Option K)
    (b0 : Board K) : Board K × Option String :=
  let b1 := removeBorders b0
  match pm "FrameBorder" with
  | none => (b1, some "FrameBorder")
  | some fb =>
  match pm "SwitchSpacing" with
  | none => (b1, some "SwitchSpacing")
  | some ss =>
  match pm "Col0Offset" with
  | none => (b1, some "Col0Offset")
  | some co0 =>
  match pm "Col1Offset" with
  | none => (b1, some "Col1Offset")
  | some co1 =>
  match pm "Col2Offset" with
  | none => (b1, some "Col2Offset")
  | some co2 =>
  match pm "Col3Offset" with
  | none => (b1, some "Col3Offset")
  | some co3 =>
  match pm "Col4Offset" with
  | none => (b1, some "Col4Offset")
  | some co4 =>
  match pm "Col5Offset" with
  | none => (b1, some "Col5Offset")
  | some co5 =>
  let co := [co0, co1, co2, co3, co4, co5]
  let b2 := placeGrid fb ss co b1
  let b3 := placeOffsets fb ss co b2
  match pm "ThumbRadius" with
  | none => (b3, some "ThumbRadius")
  | some R =>
  match pm "ThumbRotationAngle" with
  | none => (b3, some "ThumbRotationAngle")
  | some A =>
  let b4 := placeCirc cosd sind fb ss co R A b3
  let ccy := (fb - ss + co.getD 5 0) - R
  let b5 := addBorder fb ss ccy b4
  (b5, none)

/-- A run with a complete parameter set (what the repository's
`truth()` always supplies). -/
def runFull (cosd sind : K → K) (p : Params K) (b : Board K) : Board K :=
  (switch_placement cosd sind p.toMap b).1

end Engine

/-- `math.cos` after `math.radians`, over the reals. -/
noncomputable def degCos : ℝ → ℝ := fun d => Real.cos (d * (Real.pi / 180))

/-- `math.sin` after `math.radians`, over the reals. -/
noncomputable def degSin : ℝ → ℝ := fun d => Real.sin (d * (Real.pi / 180))

/-! ### Concrete fixtures used by witnesses and counterexamples -/

/-- A parameter dictionary identical to `truth` except that the required key
`ThumbRadius` is absent. -/
def pmNoThumbRadius : String → Option ℚ := fun s =>
  if s = "ThumbRadius" then none else truth.toMap s

/-- A small board: the SW1 footprint and one previously generated
(engine-tagged) border segment. -/
def boardC1 : Board ℚ :=
  { footprints := [{ ref := "SW1", pos := (0, 0), orient := 0 }],
    drawings := [{ start := (0, 0), stop := (1, 1), layer := "Edge_Cuts",
                   width := 0.15, comment := "AUTO_GENERATED_BORDER" }] }

/-- A board holding the two offset thumb switches and their diodes. -/
def boardC3 : Board ℚ :=
  { footprints := [{ ref := "SW20", pos := (0, 0), orient := 0 },
                   { ref := "D20", pos := (0, 0), orient := 0 },
                   { ref := "SW19", pos := (0, 0), orient := 0 },
                   { ref := "D19", pos := (0, 0), orient := 0 }],
    drawings := [] }

/-- A board with SW1, SW6 and D6 but no SW5 (rational carrier). -/
def boardW : Board ℚ :=
  { footprints := [{ ref := "SW1", pos := (0, 0), orient := 0 },
                   { ref := "SW6", pos := (0, 0), orient := 3 },
                   { ref := "D6", pos := (0, 0), orient := 7 }],
    drawings := [] }

/-- A board with the circular thumb switches and their diodes
(real carrier, for the trigonometric claims). -/
noncomputable def boardWR : Board ℝ :=
  { footprints := [{ ref := "SW21", pos := (0, 0), orient := 0 },
                   { ref := "D21", pos := (0, 0), orient := 0 },
                   { ref := "SW22", pos := (0, 0), orient := 0 },
                   { ref := "D22", pos := (0, 0), orient := 0 }],
    drawings := [] }

/-- The `truth` parameter values over the reals (for the trigonometric
claims). -/
noncomputable def truthR : Params ℝ :=
  { switchSpacing := 19.50, frameBorder := 5,
    col0 := 0, col1 := 4, col2 := 10, col3 := 17, col4 := 12, col5 := 9,
    thumbRadius := 92.28, thumbRotationAngle := -12 }

/-! ### Frame lemmas for the board operations -/

section BoardLemmas

variable {K : Type}

theorem findRef_updateFirst_ne (l : List (Footprint K)) (r t : String)
    (g : Footprint K → Footprint K) (hg : ∀ f, (g f).ref = f.ref)
    (h : r ≠ t) : findRef (updateFirst l r g) t = findRef l t := by
  induction l with
  | nil => rfl
  | cons f rest ih =>
    by_cases hf : f.ref = r
    · simp only [updateFirst, findRef, if_pos hf, hg f, hf, if_neg h]
    · simp only [updateFirst, findRef, if_neg hf]
      by_cases hft : f.ref = t
      · simp only [findRef, if_pos hft]
      · simp only [findRef, if_neg hft, ih]

theorem findRef_updateFirst_self (l : List (Footprint K)) (r : String)
    (g : Footprint K → Footprint K) (hg : ∀ f, (g f).ref = f.ref) :
    findRef (updateFirst l r g) r = (findRef l r).map g := by
  induction l with
  | nil => rfl
  | cons f rest ih =>
    by_cases hf : f.ref = r
    · simp only [updateFirst, findRef, if_pos hf, hg f]
      rfl
    · simp only [updateFirst, findRef, if_neg hf, ih]

theorem hasRef_setPos (b : Board K) (r t : String) (p : K × K) :
    (b.setPos r p).hasRef t = b.hasRef t := by
  rcases eq_or_ne r t with rfl | hne
  · unfold Board.hasRef Board.setPos
    rw [findRef_updateFirst_self b.footprints r (fun f => { f with pos := p })
      (fun f => rfl)]
    cases findRef b.footprints r <;> rfl
  · unfold Board.hasRef Board.setPos
    rw [findRef_updateFirst_ne b.footprints r t (fun f => { f with pos := p })
      (fun f => rfl) hne]

theorem hasRef_setOrient (b : Board K) (r t : String) (a : K) :
    (b.setOrient r a).hasRef t = b.hasRef t := by
  rcases eq_or_ne r t with rfl | hne
  · unfold Board.hasRef Board.setOrient
    rw [findRef_updateFirst_self b.footprints r (fun f => { f with orient := a })
      (fun f => rfl)]
    cases findRef b.footprints r <;> rfl
  · unfold Board.hasRef Board.setOrient
    rw [findRef_updateFirst_ne b.footprints r t (fun f => { f with orient := a })
      (fun f => rfl) hne]

theorem posOf_setPos_self (b : Board K) (r : String) (p : K × K)
    (h : b.hasRef r = true) : (b.setPos r p).posOf r = some p := by
  unfold Board.posOf Board.setPos
  rw [findRef_updateFirst_self b.footprints r (fun f => { f with pos := p })
    (fun f => rfl)]
  unfold Board.hasRef at h
  rw [Option.isSome_iff_exists] at h
  obtain ⟨f, hf⟩ := h
  rw [hf]
  rfl

theorem posOf_setPos_ne (b : Board K) (r t : String) (p : K × K)
    (h : r ≠ t) : (b.setPos r p).posOf t = b.posOf t := by
  unfold Board.posOf Board.setPos
  rw [findRef_updateFirst_ne b.footprints r t (fun f => { f with pos := p })
    (fun f => rfl) h]

theorem posOf_setOrient (b : Board K) (r t : String) (a : K) :
    (b.setOrient r a).posOf t = b.posOf t := by
  rcases eq_or_ne r t with rfl | hne
  · unfold Board.posOf Board.setOrient
    rw [findRef_updateFirst_self b.footprints r (fun f => { f with orient := a })
      (fun f => rfl)]
    cases findRef b.footprints r <;> rfl
  · unfold Board.posOf Board.setOrient
    rw [findRef_updateFirst_ne b.footprints r t (fun f => { f with orient := a })
      (fun f => rfl) hne]

theorem orientOf_setPos (b : Board K) (r t : String) (p : K × K) :
    (b.setPos r p).orientOf t = b.orientOf t := by
  rcases eq_or_ne r t with rfl | hne
  · unfold Board.orientOf Board.setPos
    rw [findRef_updateFirst_self b.footprints r (fun f => { f with pos := p })
      (fun f => rfl)]
    cases findRef b.footprints r <;> rfl
  · unfold Board.orientOf Board.setPos
    rw [findRef_updateFirst_ne b.footprints r t (fun f => { f with pos := p })
      (fun f => rfl) hne]

theorem orientOf_setOrient_self (b : Board K) (r : String) (a : K)
    (h : b.hasRef r = true) : (b.setOrient r a).orientOf r = some a := by
  unfold Board.orientOf Board.setOrient
  rw [findRef_updateFirst_self b.footprints r (fun f => { f with orient := a })
    (fun f => rfl)]
  unfold Board.hasRef at h
  rw [Option.isSome_iff_exists] at h
  obtain ⟨f, hf⟩ := h
  rw [hf]
  rfl

theorem orientOf_setOrient_ne (b : Board K) (r t : String) (a : K)
    (h : r ≠ t) : (b.setOrient r a).orientOf t = b.orientOf t := by
  unfold Board.orientOf Board.setOrient
  rw [findRef_updateFirst_ne b.footprints r t (fun f => { f with orient := a })
    (fun f => rfl) h]

theorem drawings_setPos (b : Board K) (r : String) (p : K × K) :
    (b.setPos r p).drawings = b.drawings := rfl

theorem drawings_setOrient (b : Board K) (r : String) (a : K) :
    (b.setOrient r a).drawings = b.drawings := rfl

end BoardLemmas

/-! ### Frame lemmas for the engine steps -/

section StepLemmas

variable {K : Type} [LinearOrderedField K]

theorem drawings_gridStep (fb ss : K) (co : List K) (b : Board K)
    (cr : ℕ × ℕ) : (gridStep fb ss co b cr).drawings = b.drawings := by
  simp only [gridStep]
  split
  · split
    · rw [drawings_setPos, drawings_setPos]
    · rw [drawings_setPos]
  · rfl

theorem hasRef_gridStep (fb ss : K) (co : List K) (b : Board K)
    (cr : ℕ × ℕ) (t : String) :
    (gridStep fb ss co b cr).hasRef t = b.hasRef t := by
  simp only [gridStep]
  split
  · split
    · rw [hasRef_setPos, hasRef_setPos]
    · rw [hasRef_setPos]
  · rfl

theorem orientOf_gridStep (fb ss : K) (co : List K) (b : Board K)
    (cr : ℕ × ℕ) (t : String) :
    (gridStep fb ss co b cr).orientOf t = b.orientOf t := by
  simp only [gridStep]
  split
  · split
    · rw [orientOf_setPos, orientOf_setPos]
    · rw [orientOf_setPos]
  · rfl

theorem posOf_gridStep_ne (fb ss : K) (co : List K) (b : Board K)
    (cr : ℕ × ℕ) (t : String)
    (hsw : swRef (cr.1 * 3 + cr.2 + 1) ≠ t)
    (hd : dRef (cr.1 * 3 + cr.2 + 1) ≠ t) :
    (gridStep fb ss co b cr).posOf t = b.posOf t := by
  simp only [gridStep]
  split
  · split
    · rw [posOf_setPos_ne _ _ _ _ hd, posOf_setPos_ne _ _ _ _ hsw]
    · rw [posOf_setPos_ne _ _ _ _ hsw]
  · rfl

theorem posOf_gridStep_sw (fb ss : K) (co : List K) (b : Board K)
    (cr : ℕ × ℕ) (h : b.hasRef (swRef (cr.1 * 3 + cr.2 + 1)) = true)
    (hne : dRef (cr.1 * 3 + cr.2 + 1) ≠ swRef (cr.1 * 3 + cr.2 + 1)) :
    (gridStep fb ss co b cr).posOf (swRef (cr.1 * 3 + cr.2 + 1)) =
      some (fb + (cr.1 : K) * ss + 40,
        -(fb + (cr.2 : K) * ss + co.getD cr.1 0) + 120) := by
  simp only [gridStep, h, if_true]
  split
  · rw [posOf_setPos_ne _ _ _ _ hne, posOf_setPos_self _ _ _ h]
  · rw [posOf_setPos_self _ _ _ h]

theorem posOf_gridStep_d (fb ss : K) (co : List K) (b : Board K)
    (cr : ℕ × ℕ) (hsw : b.hasRef (swRef (cr.1 * 3 + cr.2 + 1)) = true)
    (hd : b.hasRef (dRef (cr.1 * 3 + cr.2 + 1)) = true) :
    (gridStep fb ss co b cr).posOf (dRef (cr.1 * 3 + cr.2 + 1)) =
      some (fb + (cr.1 : K) * ss + 40,
        -(fb + (cr.2 : K) * ss + co.getD cr.1 0) + 120 + 8) := by
  have hd1 : (b.setPos (swRef (cr.1 * 3 + cr.2 + 1))
      (fb + (cr.1 : K) * ss + 40,
        -(fb + (cr.2 : K) * ss + co.getD cr.1 0) + 120)).hasRef
      (dRef (cr.1 * 3 + cr.2 + 1)) = true := by
    rw [hasRef_setPos]
    exact hd
  simp only [gridStep, hsw, if_true, hd1]
  rw [posOf_setPos_self _ _ _ hd1]

theorem drawings_offsetStep (xpos ypos : K) (n : ℕ) (b : Board K) :
    (offsetStep xpos ypos n b).drawings = b.drawings := by
  simp only [offsetStep]
  split
  · split
    · rw [drawings_setPos, drawings_setPos]
    · rw [drawings_setPos]
  · rfl

theorem hasRef_offsetStep (xpos ypos : K) (n : ℕ) (b : Board K) (t : String) :
    (offsetStep xpos ypos n b).hasRef t = b.hasRef t := by
  simp only [offsetStep]
  split
  · split
    · rw [hasRef_setPos, hasRef_setPos]
    · rw [hasRef_setPos]
  · rfl

theorem orientOf_offsetStep (xpos ypos : K) (n : ℕ) (b : Board K)
    (t : String) : (offsetStep xpos ypos n b).orientOf t = b.orientOf t := by
  simp only [offsetStep]
  split
  · split
    · rw [orientOf_setPos, orientOf_setPos]
    · rw [orientOf_setPos]
  · rfl

theorem posOf_offsetStep_ne (xpos ypos : K) (n : ℕ) (b : Board K)
    (t : String) (hsw : swRef n ≠ t) (hd : dRef n ≠ t) :
    (offsetStep xpos ypos n b).posOf t = b.posOf t := by
  simp only [offsetStep]
  split
  · split
    · rw [posOf_setPos_ne _ _ _ _ hd, posOf_setPos_ne _ _ _ _ hsw]
    · rw [posOf_setPos_ne _ _ _ _ hsw]
  · rfl

theorem posOf_offsetStep_sw (xpos ypos : K) (n : ℕ) (b : Board K)
    (h : b.hasRef (swRef n) = true) (hne : dRef n ≠ swRef n) :
    (offsetStep xpos ypos n b).posOf (swRef n) = some (xpos, -ypos + 120) := by
  simp only [offsetStep, h, if_true]
  split
  · rw [posOf_setPos_ne _ _ _ _ hne, posOf_setPos_self _ _ _ h]
  · rw [posOf_setPos_self _ _ _ h]

theorem posOf_offsetStep_d (xpos ypos : K) (n : ℕ) (b : Board K)
    (hsw : b.hasRef (swRef n) = true) (hd : b.hasRef (dRef n) = true) :
    (offsetStep xpos ypos n b).posOf (dRef n) =
      some (xpos, -ypos + 120 + pcbnew_ToMM 8) := by
  have hd1 : (b.setPos (swRef n) (xpos, -ypos + 120)).hasRef (dRef n) =
      true := by
    rw [hasRef_setPos]
    exact hd
  simp only [offsetStep, hsw, if_true, hd1]
  rw [posOf_setPos_self _ _ _ hd1]

theorem drawings_circStep (cosd sind : K → K) (R A ccx ccy : K)
    (b : Board K) (i : ℕ) :
    (circStep cosd sind R A ccx ccy b i).drawings = b.drawings := by
  simp only [circStep]
  split
  · split
    · rw [drawings_setOrient, drawings_setPos, drawings_setOrient,
        drawings_setPos]
    · rw [drawings_setOrient, drawings_setPos]
  · rfl

theorem hasRef_circStep (cosd sind : K → K) (R A ccx ccy : K)
    (b : Board K) (i : ℕ) (t : String) :
    (circStep cosd sind R A ccx ccy b i).hasRef t = b.hasRef t := by
  simp only [circStep]
  split
  · split
    · rw [hasRef_setOrient, hasRef_setPos, hasRef_setOrient, hasRef_setPos]
    · rw [hasRef_setOrient, hasRef_setPos]
  · rfl

theorem posOf_circStep_ne (cosd sind : K → K) (R A ccx ccy : K)
    (b : Board K) (i : ℕ) (t : String)
    (hsw : swRef (21 + i) ≠ t) (hd : dRef (21 + i) ≠ t) :
    (circStep cosd sind R A ccx ccy b i).posOf t = b.posOf t := by
  simp only [circStep]
  split
  · split
    · rw [posOf_setOrient, posOf_setPos_ne _ _ _ _ hd, posOf_setOrient,
        posOf_setPos_ne _ _ _ _ hsw]
    · rw [posOf_setOrient, posOf_setPos_ne _ _ _ _ hsw]
  · rfl

theorem orientOf_circStep_ne (cosd sind : K → K) (R A ccx ccy : K)
    (b : Board K) (i : ℕ) (t : String)
    (hsw : swRef (21 + i) ≠ t) (hd : dRef (21 + i) ≠ t) :
    (circStep cosd sind R A ccx ccy b i).orientOf t = b.orientOf t := by
  simp only [circStep]
  split
  · split
    · rw [orientOf_setOrient_ne _ _ _ _ hd, orientOf_setPos,
        orientOf_setOrient_ne _ _ _ _ hsw, orientOf_setPos]
    · rw [orientOf_setOrient_ne _ _ _ _ hsw, orientOf_setPos]
  · rfl

theorem posOf_circStep_sw (cosd sind : K → K) (R A ccx ccy : K)
    (b : Board K) (i : ℕ) (h : b.hasRef (swRef (21 + i)) = true)
    (hne : dRef (21 + i) ≠ swRef (21 + i)) :
    (circStep cosd sind R A ccx ccy b i).posOf (swRef (21 + i)) =
      some (ccx + R * cosd (90 + ((i : K) + 1) * A),
        -(ccy + R * sind (90 + ((i : K) + 1) * A)) + 120) := by
  simp only [circStep, h, if_true]
  split
  · rw [posOf_setOrient, posOf_setPos_ne _ _ _ _ hne, posOf_setOrient,
      posOf_setPos_self _ _ _ h]
  · rw [posOf_setOrient, posOf_setPos_self _ _ _ h]

theorem orientOf_circStep_sw (cosd sind : K → K) (R A ccx ccy : K)
    (b : Board K) (i : ℕ) (h : b.hasRef (swRef (21 + i)) = true)
    (hne : dRef (21 + i) ≠ swRef (21 + i)) :
    (circStep cosd sind R A ccx ccy b i).orientOf (swRef (21 + i)) =
      some (90 + ((i : K) + 1) * A) := by
  have h1 : (b.setPos (swRef (21 + i))
      (ccx + R * cosd (90 + ((i : K) + 1) * A),
        -(ccy + R * sind (90 + ((i : K) + 1) * A)) + 120)).hasRef
      (swRef (21 + i)) = true := by
    rw [hasRef_setPos]
    exact h
  simp only [circStep, h, if_true]
  split
  · rw [orientOf_setOrient_ne _ _ _ _ hne, orientOf_setPos,
      orientOf_setOrient_self _ _ _ h1]
  · rw [orientOf_setOrient_self _ _ _ h1]

theorem posOf_circStep_d (cosd sind : K → K) (R A ccx ccy : K)
    (b : Board K) (i : ℕ) (hsw : b.hasRef (swRef (21 + i)) = true)
    (hd : b.hasRef (dRef (21 + i)) = true) :
    (circStep cosd sind R A ccx ccy b i).posOf (dRef (21 + i)) =
      some (ccx + R * cosd (90 + ((i : K) + 1) * A) +
          8 * cosd (90 + ((i : K) + 1) * A),
        -(ccy + R * sind (90 + ((i : K) + 1) * A) +
            8 * sind (90 + ((i : K) + 1) * A)) + 120) := by
  have hd2 : ((b.setPos (swRef (21 + i))
      (ccx + R * cosd (90 + ((i : K) + 1) * A),
        -(ccy + R * sind (90 + ((i : K) + 1) * A)) + 120)).setOrient
      (swRef (21 + i)) (90 + ((i : K) + 1) * A)).hasRef (dRef (21 + i)) =
      true := by
    rw [hasRef_setOrient, hasRef_setPos]
    exact hd
  simp only [circStep, hsw, if_true, hd2]
  rw [posOf_setOrient, posOf_setPos_self _ _ _ hd2]

theorem orientOf_circStep_d (cosd sind : K → K) (R A ccx ccy : K)
    (b : Board K) (i : ℕ) (hsw : b.hasRef (swRef (21 + i)) = true)
    (hd : b.hasRef (dRef (21 + i)) = true) :
    (circStep cosd sind R A ccx ccy b i).orientOf (dRef (21 + i)) =
      some (90 + ((i : K) + 1) * A) := by
  have hd2 : ((b.setPos (swRef (21 + i))
      (ccx + R * cosd (90 + ((i : K) + 1) * A),
        -(ccy + R * sind (90 + ((i : K) + 1) * A)) + 120)).setOrient
      (swRef (21 + i)) (90 + ((i : K) + 1) * A)).hasRef (dRef (21 + i)) =
      true := by
    rw [hasRef_setOrient, hasRef_setPos]
    exact hd
  have hd3 : (((b.setPos (swRef (21 + i))
      (ccx + R * cosd (90 + ((i : K) + 1) * A),
        -(ccy + R * sind (90 + ((i : K) + 1) * A)) + 120)).setOrient
      (swRef (21 + i)) (90 + ((i : K) + 1) * A)).setPos (dRef (21 + i))
      (ccx + R * cosd (90 + ((i : K) + 1) * A) +
          8 * cosd (90 + ((i : K) + 1) * A),
        -(ccy + R * sind (90 + ((i : K) + 1) * A) +
            8 * sind (90 + ((i : K) + 1) * A)) + 120)).hasRef
      (dRef (21 + i)) = true := by
    rw [hasRef_setPos]
    exact hd2
  simp only [circStep, hsw, if_true, hd2]
  rw [orientOf_setOrient_self _ _ _ hd3]

end StepLemmas

/-! ### Fold and stage lemmas -/

section StageLemmas

variable {K : Type} [LinearOrderedField K]

theorem drawings_foldl {β : Type} (f : Board K → β → Board K) (l : List β)
    (b : Board K) (h : ∀ b x, (f b x).drawings = b.drawings) :
    (l.foldl f b).drawings = b.drawings := by
  induction l generalizing b with
  | nil => rfl
  | cons x xs ih => rw [List.foldl_cons, ih, h]

theorem hasRef_foldl {β : Type} (f : Board K → β → Board K) (l : List β)
    (b : Board K) (t : String)
    (h : ∀ b x, (f b x).hasRef t = b.hasRef t) :
    (l.foldl f b).hasRef t = b.hasRef t := by
  induction l generalizing b with
  | nil => rfl
  | cons x xs ih => rw [List.foldl_cons, ih, h]

theorem posOf_foldl {β : Type} (f : Board K → β → Board K) (l : List β)
    (b : Board K) (t : String)
    (h : ∀ b x, x ∈ l → (f b x).posOf t = b.posOf t) :
    (l.foldl f b).posOf t = b.posOf t := by
  induction l generalizing b with
  | nil => rfl
  | cons x xs ih =>
    rw [List.foldl_cons,
      ih _ fun b y hy => h b y (List.mem_cons_of_mem _ hy),
      h b x (List.mem_cons_self _ _)]

theorem orientOf_foldl {β : Type} (f : Board K → β → Board K) (l : List β)
    (b : Board K) (t : String)
    (h : ∀ b x, x ∈ l → (f b x).orientOf t = b.orientOf t) :
    (l.foldl f b).orientOf t = b.orientOf t := by
  induction l generalizing b with
  | nil => rfl
  | cons x xs ih =>
    rw [List.foldl_cons,
      ih _ fun b y hy => h b y (List.mem_cons_of_mem _ hy),
      h b x (List.mem_cons_self _ _)]

theorem gridPairs_bounds : ∀ x ∈ gridPairs, x.1 < 6 ∧ x.2 < 3 := by decide

theorem gridPairs_nodup : gridPairs.Nodup := by decide

theorem swRef_inj : ∀ a, a < 23 → ∀ c, c < 23 → a ≠ c → swRef a ≠ swRef c := by
  decide

theorem dRef_ne_swRef : ∀ a, a < 23 → ∀ c, c < 23 → dRef a ≠ swRef c := by
  decide

theorem dRef_inj : ∀ a, a < 23 → ∀ c, c < 23 → a ≠ c → dRef a ≠ dRef c := by
  decide

theorem drawings_placeGrid (fb ss : K) (co : List K) (b : Board K) :
    (placeGrid fb ss co b).drawings = b.drawings :=
  drawings_foldl _ _ _ fun b cr => drawings_gridStep fb ss co b cr

theorem hasRef_placeGrid (fb ss : K) (co : List K) (b : Board K)
    (t : String) : (placeGrid fb ss co b).hasRef t = b.hasRef t :=
  hasRef_foldl _ _ _ _ fun b cr => hasRef_gridStep fb ss co b cr t

theorem orientOf_placeGrid (fb ss : K) (co : List K) (b : Board K)
    (t : String) : (placeGrid fb ss co b).orientOf t = b.orientOf t :=
  orientOf_foldl _ _ _ _ fun b cr _ => orientOf_gridStep fb ss co b cr t

theorem posOf_placeGrid_ne (fb ss : K) (co : List K) (b : Board K)
    (t : String) (h : ∀ m, m < 19 → swRef m ≠ t ∧ dRef m ≠ t) :
    (placeGrid fb ss co b).posOf t = b.posOf t := by
  refine posOf_foldl _ _ _ _ fun b x hx => ?_
  obtain ⟨h1, h2⟩ := gridPairs_bounds x hx
  have hm : x.1 * 3 + x.2 + 1 < 19 := by omega
  exact posOf_gridStep_ne fb ss co b x t (h _ hm).1 (h _ hm).2

theorem drawings_placeOffsets (fb ss : K) (co : List K) (b : Board K) :
    (placeOffsets fb ss co b).drawings = b.drawings := by
  simp only [placeOffsets]
  rw [drawings_offsetStep, drawings_offsetStep]

theorem hasRef_placeOffsets (fb ss : K) (co : List K) (b : Board K)
    (t : String) : (placeOffsets fb ss co b).hasRef t = b.hasRef t := by
  simp only [placeOffsets]
  rw [hasRef_offsetStep, hasRef_offsetStep]

theorem orientOf_placeOffsets (fb ss : K) (co : List K) (b : Board K)
    (t : String) : (placeOffsets fb ss co b).orientOf t = b.orientOf t := by
  simp only [placeOffsets]
  rw [orientOf_offsetStep, orientOf_offsetStep]

theorem posOf_placeOffsets_ne (fb ss : K) (co : List K) (b : Board K)
    (t : String) (h20 : swRef 20 ≠ t) (hd20 : dRef 20 ≠ t)
    (h19 : swRef 19 ≠ t) (hd19 : dRef 19 ≠ t) :
    (placeOffsets fb ss co b).posOf t = b.posOf t := by
  simp only [placeOffsets]
  rw [posOf_offsetStep_ne _ _ _ _ _ h19 hd19,
    posOf_offsetStep_ne _ _ _ _ _ h20 hd20]

theorem posOf_placeOffsets_sw20 (fb ss : K) (co : List K) (b : Board K)
    (h : b.hasRef (swRef 20) = true) :
    (placeOffsets fb ss co b).posOf (swRef 20) =
      some (fb + 5 * ss + 40, -(fb - ss + co.getD 5 0) + 120) := by
  simp only [placeOffsets]
  rw [posOf_offsetStep_ne _ _ _ _ _ (by decide) (by decide),
    posOf_offsetStep_sw _ _ _ _ h (by decide)]

theorem posOf_placeOffsets_d20 (fb ss : K) (co : List K) (b : Board K)
    (hsw : b.hasRef (swRef 20) = true) (hd : b.hasRef (dRef 20) = true) :
    (placeOffsets fb ss co b).posOf (dRef 20) =
      some (fb + 5 * ss + 40,
        -(fb - ss + co.getD 5 0) + 120 + pcbnew_ToMM 8) := by
  simp only [placeOffsets]
  rw [posOf_offsetStep_ne _ _ _ _ _ (by decide) (by decide),
    posOf_offsetStep_d _ _ _ _ hsw hd]

theorem posOf_placeOffsets_sw19 (fb ss : K) (co : List K) (b : Board K)
    (h : b.hasRef (swRef 19) = true) :
    (placeOffsets fb ss co b).posOf (swRef 19) =
      some (fb + 4 * ss + 40, -(fb - ss + co.getD 5 0) + 120) := by
  simp only [placeOffsets]
  have h1 : (offsetStep (fb + 5 * ss + 40) (fb - ss + co.getD 5 0) 20
      b).hasRef (swRef 19) = true := by
    rw [hasRef_offsetStep]
    exact h
  rw [posOf_offsetStep_sw _ _ _ _ h1 (by decide)]

theorem posOf_placeOffsets_d19 (fb ss : K) (co : List K) (b : Board K)
    (hsw : b.hasRef (swRef 19) = true) (hd : b.hasRef (dRef 19) = true) :
    (placeOffsets fb ss co b).posOf (dRef 19) =
      some (fb + 4 * ss + 40,
        -(fb - ss + co.getD 5 0) + 120 + pcbnew_ToMM 8) := by
  simp only [placeOffsets]
  have h1 : (offsetStep (fb + 5 * ss + 40) (fb - ss + co.getD 5 0) 20
      b).hasRef (swRef 19) = true := by
    rw [hasRef_offsetStep]
    exact hsw
  have h2 : (offsetStep (fb + 5 * ss + 40) (fb - ss + co.getD 5 0) 20
      b).hasRef (dRef 19) = true := by
    rw [hasRef_offsetStep]
    exact hd
  rw [posOf_offsetStep_d _ _ _ _ h1 h2]

theorem placeCirc_eq (cosd sind : K → K) (fb ss : K) (co : List K)
    (R A : K) (b : Board K) :
    placeCirc cosd sind fb ss co R A b =
      circStep cosd sind R A (fb + 5 * ss + 40)
        ((fb - ss + co.getD 5 0) - R)
        (circStep cosd sind R A (fb + 5 * ss + 40)
          ((fb - ss + co.getD 5 0) - R) b 0) 1 := by
  simp only [placeCirc, List.foldl_cons, List.foldl_nil]

theorem drawings_placeCirc (cosd sind : K → K) (fb ss : K) (co : List K)
    (R A : K) (b : Board K) :
    (placeCirc cosd sind fb ss co R A b).drawings = b.drawings := by
  rw [placeCirc_eq, drawings_circStep, drawings_circStep]

theorem hasRef_placeCirc (cosd sind : K → K) (fb ss : K) (co : List K)
    (R A : K) (b : Board K) (t : String) :
    (placeCirc cosd sind fb ss co R A b).hasRef t = b.hasRef t := by
  rw [placeCirc_eq, hasRef_circStep, hasRef_circStep]

theorem posOf_placeCirc_ne (cosd sind : K → K) (fb ss : K) (co : List K)
    (R A : K) (b : Board K) (t : String)
    (h21 : swRef 21 ≠ t) (hd21 : dRef 21 ≠ t)
    (h22 : swRef 22 ≠ t) (hd22 : dRef 22 ≠ t) :
    (placeCirc cosd sind fb ss co R A b).posOf t = b.posOf t := by
  rw [placeCirc_eq, posOf_circStep_ne _ _ _ _ _ _ _ _ _ h22 hd22,
    posOf_circStep_ne _ _ _ _ _ _ _ _ _ h21 hd21]

theorem orientOf_placeCirc_ne (cosd sind : K → K) (fb ss : K) (co : List K)
    (R A : K) (b : Board K) (t : String)
    (h21 : swRef 21 ≠ t) (hd21 : dRef 21 ≠ t)
    (h22 : swRef 22 ≠ t) (hd22 : dRef 22 ≠ t) :
    (placeCirc cosd sind fb ss co R A b).orientOf t = b.orientOf t := by
  rw [placeCirc_eq, orientOf_circStep_ne _ _ _ _ _ _ _ _ _ h22 hd22,
    orientOf_circStep_ne _ _ _ _ _ _ _ _ _ h21 hd21]

theorem drawings_removeBorders (b : Board K) :
    (removeBorders b).drawings =
      b.drawings.filter fun d => decide (d.comment ≠ marker) := rfl

theorem hasRef_removeBorders (b : Board K) (t : String) :
    (removeBorders b).hasRef t = b.hasRef t := rfl

theorem posOf_removeBorders (b : Board K) (t : String) :
    (removeBorders b).posOf t = b.posOf t := rfl

theorem orientOf_removeBorders (b : Board K) (t : String) :
    (removeBorders b).orientOf t = b.orientOf t := rfl

theorem drawings_addBorder (fb ss ccy : K) (b : Board K) :
    (addBorder fb ss ccy b).drawings =
      b.drawings ++ borderSegments fb ss ccy := rfl

theorem hasRef_addBorder (fb ss ccy : K) (b : Board K) (t : String) :
    (addBorder fb ss ccy b).hasRef t = b.hasRef t := rfl

theorem posOf_addBorder (fb ss ccy : K) (b : Board K) (t : String) :
    (addBorder fb ss ccy b).posOf t = b.posOf t := rfl

theorem orientOf_addBorder (fb ss ccy : K) (b : Board K) (t : String) :
    (addBorder fb ss ccy b).orientOf t = b.orientOf t := rfl

theorem posOf_placeGrid_sw (fb ss : K) (co : List K) (b : Board K)
    (c r : ℕ) (hc : c < 6) (hr : r < 3)
    (h : b.hasRef (swRef (c * 3 + r + 1)) = true) :
    (placeGrid fb ss co b).posOf (swRef (c * 3 + r + 1)) =
      some (fb + (c : K) * ss + 40,
        -(fb + (r : K) * ss + co.getD c 0) + 120) := by
  have hmem : (c, r) ∈ gridPairs := by
    simp only [gridPairs, List.mem_flatMap, List.mem_map, List.mem_range]
    exact ⟨c, hc, r, hr, rfl⟩
  obtain ⟨l1, l2, hsplit⟩ := List.append_of_mem hmem
  have hnd : (l1 ++ (c, r) :: l2).Nodup := hsplit ▸ gridPairs_nodup
  have hnotin : (c, r) ∉ l2 :=
    (List.nodup_cons.mp (List.nodup_append.mp hnd).2.1).1
  have hpres : ∀ (b2 : Board K) x, x ∈ l2 →
      (gridStep fb ss co b2 x).posOf (swRef (c * 3 + r + 1)) =
        b2.posOf (swRef (c * 3 + r + 1)) := by
    intro b2 x hx
    have hxg : x ∈ gridPairs := by
      rw [hsplit]
      exact List.mem_append_right _ (List.mem_cons_of_mem _ hx)
    obtain ⟨hx1, hx2⟩ := gridPairs_bounds x hxg
    have hxne : x ≠ (c, r) := fun he => hnotin (he ▸ hx)
    have hidx : x.1 * 3 + x.2 + 1 ≠ c * 3 + r + 1 := by
      intro heq
      apply hxne
      have e1 : x.1 = c := by omega
      have e2 : x.2 = r := by omega
      exact Prod.ext e1 e2
    exact posOf_gridStep_ne fb ss co b2 x _
      (swRef_inj _ (by omega) _ (by omega) hidx)
      (dRef_ne_swRef _ (by omega) _ (by omega))
  have hmid : (l1.foldl (gridStep fb ss co) b).hasRef
      (swRef (c * 3 + r + 1)) = true := by
    rw [hasRef_foldl _ _ _ _ fun b3 x => hasRef_gridStep fb ss co b3 x _]
    exact h
  have hself := posOf_gridStep_sw fb ss co (l1.foldl (gridStep fb ss co) b)
    (c, r) hmid (dRef_ne_swRef _ (by omega) _ (by omega))
  unfold placeGrid
  rw [hsplit, List.foldl_append, List.foldl_cons, posOf_foldl _ _ _ _ hpres]
  exact hself

theorem posOf_placeGrid_d (fb ss : K) (co : List K) (b : Board K)
    (c r : ℕ) (hc : c < 6) (hr : r < 3)
    (hsw : b.hasRef (swRef (c * 3 + r + 1)) = true)
    (hd : b.hasRef (dRef (c * 3 + r + 1)) = true) :
    (placeGrid fb ss co b).posOf (dRef (c * 3 + r + 1)) =
      some (fb + (c : K) * ss + 40,
        -(fb + (r : K) * ss + co.getD c 0) + 120 + 8) := by
  have hmem : (c, r) ∈ gridPairs := by
    simp only [gridPairs, List.mem_flatMap, List.mem_map, List.mem_range]
    exact ⟨c, hc, r, hr, rfl⟩
  obtain ⟨l1, l2, hsplit⟩ := List.append_of_mem hmem
  have hnd : (l1 ++ (c, r) :: l2).Nodup := hsplit ▸ gridPairs_nodup
  have hnotin : (c, r) ∉ l2 :=
    (List.nodup_cons.mp (List.nodup_append.mp hnd).2.1).1
  have hpres : ∀ (b2 : Board K) x, x ∈ l2 →
      (gridStep fb ss co b2 x).posOf (dRef (c * 3 + r + 1)) =
        b2.posOf (dRef (c * 3 + r + 1)) := by
    intro b2 x hx
    have hxg : x ∈ gridPairs := by
      rw [hsplit]
      exact List.mem_append_right _ (List.mem_cons_of_mem _ hx)
    obtain ⟨hx1, hx2⟩ := gridPairs_bounds x hxg
    have hxne : x ≠ (c, r) := fun he => hnotin (he ▸ hx)
    have hidx : x.1 * 3 + x.2 + 1 ≠ c * 3 + r + 1 := by
      intro heq
      apply hxne
      have e1 : x.1 = c := by omega
      have e2 : x.2 = r := by omega
      exact Prod.ext e1 e2
    exact posOf_gridStep_ne fb ss co b2 x _
      (Ne.symm (dRef_ne_swRef _ (by omega) _ (by omega)))
      (dRef_inj _ (by omega) _ (by omega) hidx)
  have hmidsw : (l1.foldl (gridStep fb ss co) b).hasRef
      (swRef (c * 3 + r + 1)) = true := by
    rw [hasRef_foldl _ _ _ _ fun b3 x => hasRef_gridStep fb ss co b3 x _]
    exact hsw
  have hmidd : (l1.foldl (gridStep fb ss co) b).hasRef
      (dRef (c * 3 + r + 1)) = true := by
    rw [hasRef_foldl _ _ _ _ fun b3 x => hasRef_gridStep fb ss co b3 x _]
    exact hd
  have hself := posOf_gridStep_d fb ss co (l1.foldl (gridStep fb ss co) b)
    (c, r) hmidsw hmidd
  unfold placeGrid
  rw [hsplit, List.foldl_append, List.foldl_cons, posOf_foldl _ _ _ _ hpres]
  exact hself

theorem posOf_placeCirc_sw21 (cosd sind : K → K) (fb ss : K) (co : List K)
    (R A : K) (b : Board K) (h : b.hasRef (swRef 21) = true) :
    (placeCirc cosd sind fb ss co R A b).posOf (swRef 21) =
      some ((fb + 5 * ss + 40) + R * cosd (90 + A),
        -(((fb - ss + co.getD 5 0) - R) + R * sind (90 + A)) + 120) := by
  rw [placeCirc_eq,
    posOf_circStep_ne _ _ _ _ _ _ _ 1 _ (by decide) (by decide)]
  have h0 := posOf_circStep_sw cosd sind R A (fb + 5 * ss + 40)
    ((fb - ss + co.getD 5 0) - R) b 0 h (by decide)
  simp only [Nat.cast_zero, zero_add, one_mul,
    show (21 + 0 : ℕ) = 21 from rfl] at h0
  exact h0

theorem orientOf_placeCirc_sw21 (cosd sind : K → K) (fb ss : K)
    (co : List K) (R A : K) (b : Board K)
    (h : b.hasRef (swRef 21) = true) :
    (placeCirc cosd sind fb ss co R A b).orientOf (swRef 21) =
      some (90 + A) := by
  rw [placeCirc_eq,
    orientOf_circStep_ne _ _ _ _ _ _ _ 1 _ (by decide) (by decide)]
  have h0 := orientOf_circStep_sw cosd sind R A (fb + 5 * ss + 40)
    ((fb - ss + co.getD 5 0) - R) b 0 h (by decide)
  simp only [Nat.cast_zero, zero_add, one_mul,
    show (21 + 0 : ℕ) = 21 from rfl] at h0
  exact h0

theorem posOf_placeCirc_sw22 (cosd sind : K → K) (fb ss : K) (co : List K)
    (R A : K) (b : Board K) (h : b.hasRef (swRef 22) = true) :
    (placeCirc cosd sind fb ss co R A b).posOf (swRef 22) =
      some ((fb + 5 * ss + 40) + R * cosd (90 + 2 * A),
        -(((fb - ss + co.getD 5 0) - R) + R * sind (90 + 2 * A)) + 120) := by
  rw [placeCirc_eq]
  have h1 : (circStep cosd sind R A (fb + 5 * ss + 40)
      ((fb - ss + co.getD 5 0) - R) b 0).hasRef (swRef 22) = true := by
    rw [hasRef_circStep]
    exact h
  have h2 := posOf_circStep_sw cosd sind R A (fb + 5 * ss + 40)
    ((fb - ss + co.getD 5 0) - R)
    (circStep cosd sind R A (fb + 5 * ss + 40)
      ((fb - ss + co.getD 5 0) - R) b 0) 1 h1 (by decide)
  simp only [Nat.cast_one, one_add_one_eq_two,
    show (21 + 1 : ℕ) = 22 from rfl] at h2
  exact h2

theorem orientOf_placeCirc_sw22 (cosd sind : K → K) (fb ss : K)
    (co : List K) (R A : K) (b : Board K)
    (h : b.hasRef (swRef 22) = true) :
    (placeCirc cosd sind fb ss co R A b).orientOf (swRef 22) =
      some (90 + 2 * A) := by
  rw [placeCirc_eq]
  have h1 : (circStep cosd sind R A (fb + 5 * ss + 40)
      ((fb - ss + co.getD 5 0) - R) b 0).hasRef (swRef 22) = true := by
    rw [hasRef_circStep]
    exact h
  have h2 := orientOf_circStep_sw cosd sind R A (fb + 5 * ss + 40)
    ((fb - ss + co.getD 5 0) - R)
    (circStep cosd sind R A (fb + 5 * ss + 40)
      ((fb - ss + co.getD 5 0) - R) b 0) 1 h1 (by decide)
  simp only [Nat.cast_one, one_add_one_eq_two,
    show (21 + 1 : ℕ) = 22 from rfl] at h2
  exact h2

theorem posOf_placeCirc_d21 (cosd sind : K → K) (fb ss : K) (co : List K)
    (R A : K) (b : Board K) (hsw : b.hasRef (swRef 21) = true)
    (hd : b.hasRef (dRef 21) = true) :
    (placeCirc cosd sind fb ss co R A b).posOf (dRef 21) =
      some ((fb + 5 * ss + 40) + R * cosd (90 + A) + 8 * cosd (90 + A),
        -(((fb - ss + co.getD 5 0) - R) + R * sind (90 + A) +
            8 * sind (90 + A)) + 120) := by
  rw [placeCirc_eq,
    posOf_circStep_ne _ _ _ _ _ _ _ 1 _ (by decide) (by decide)]
  have h0 := posOf_circStep_d cosd sind R A (fb + 5 * ss + 40)
    ((fb - ss + co.getD 5 0) - R) b 0 hsw hd
  simp only [Nat.cast_zero, zero_add, one_mul,
    show (21 + 0 : ℕ) = 21 from rfl] at h0
  exact h0

theorem orientOf_placeCirc_d21 (cosd sind : K → K) (fb ss : K)
    (co : List K) (R A : K) (b : Board K)
    (hsw : b.hasRef (swRef 21) = true) (hd : b.hasRef (dRef 21) = true) :
    (placeCirc cosd sind fb ss co R A b).orientOf (dRef 21) =
      some (90 + A) := by
  rw [placeCirc_eq,
    orientOf_circStep_ne _ _ _ _ _ _ _ 1 _ (by decide) (by decide)]
  have h0 := orientOf_circStep_d cosd sind R A (fb + 5 * ss + 40)
    ((fb - ss + co.getD 5 0) - R) b 0 hsw hd
  simp only [Nat.cast_zero, zero_add, one_mul,
    show (21 + 0 : ℕ) = 21 from rfl] at h0
  exact h0

theorem posOf_placeCirc_d22 (cosd sind : K → K) (fb ss : K) (co : List K)
    (R A : K) (b : Board K) (hsw : b.hasRef (swRef 22) = true)
    (hd : b.hasRef (dRef 22) = true) :
    (placeCirc cosd sind fb ss co R A b).posOf (dRef 22) =
      some ((fb + 5 * ss + 40) + R * cosd (90 + 2 * A) +
          8 * cosd (90 + 2 * A),
        -(((fb - ss + co.getD 5 0) - R) + R * sind (90 + 2 * A) +
            8 * sind (90 + 2 * A)) + 120) := by
  rw [placeCirc_eq]
  have h1 : (circStep cosd sind R A (fb + 5 * ss + 40)
      ((fb - ss + co.getD 5 0) - R) b 0).hasRef (swRef 22) = true := by
    rw [hasRef_circStep]
    exact hsw
  have h2 : (circStep cosd sind R A (fb + 5 * ss + 40)
      ((fb - ss + co.getD 5 0) - R) b 0).hasRef (dRef 22) = true := by
    rw [hasRef_circStep]
    exact hd
  have h3 := posOf_circStep_d cosd sind R A (fb + 5 * ss + 40)
    ((fb - ss + co.getD 5 0) - R)
    (circStep cosd sind R A (fb + 5 * ss + 40)
      ((fb - ss + co.getD 5 0) - R) b 0) 1 h1 h2
  simp only [Nat.cast_one, one_add_one_eq_two,
    show (21 + 1 : ℕ) = 22 from rfl] at h3
  exact h3

theorem orientOf_placeCirc_d22 (cosd sind : K → K) (fb ss : K)
    (co : List K) (R A : K) (b : Board K)
    (hsw : b.hasRef (swRef 22) = true) (hd : b.hasRef (dRef 22) = true) :
    (placeCirc cosd sind fb ss co R A b).orientOf (dRef 22) =
      some (90 + 2 * A) := by
  rw [placeCirc_eq]
  have h1 : (circStep cosd sind R A (fb + 5 * ss + 40)
      ((fb - ss + co.getD 5 0) - R) b 0).hasRef (swRef 22) = true := by
    rw [hasRef_circStep]
    exact hsw
  have h2 : (circStep cosd sind R A (fb + 5 * ss + 40)
      ((fb - ss + co.getD 5 0) - R) b 0).hasRef (dRef 22) = true := by
    rw [hasRef_circStep]
    exact hd
  have h3 := orientOf_circStep_d cosd sind R A (fb + 5 * ss + 40)
    ((fb - ss + co.getD 5 0) - R)
    (circStep cosd sind R A (fb + 5 * ss + 40)
      ((fb - ss + co.getD 5 0) - R) b 0) 1 h1 h2
  simp only [Nat.cast_one, one_add_one_eq_two,
    show (21 + 1 : ℕ) = 22 from rfl] at h3
  exact h3

/-- With a complete parameter set every dictionary read succeeds, and the
run is exactly the composition of its five stages with no error. -/
theorem switch_placement_toMap (cosd sind : K → K) (p : Params K)
    (b : Board K) :
    switch_placement cosd sind p.toMap b =
      (addBorder p.frameBorder p.switchSpacing
        ((p.frameBorder - p.switchSpacing + (colList p).getD 5 0) -
          p.thumbRadius)
        (placeCirc cosd sind p.frameBorder p.switchSpacing (colList p)
          p.thumbRadius p.thumbRotationAngle
          (placeOffsets p.frameBorder p.switchSpacing (colList p)
            (placeGrid p.frameBorder p.switchSpacing (colList p)
              (removeBorders b)))), none) := rfl

theorem runFull_eq (cosd sind : K → K) (p : Params K) (b : Board K) :
    runFull cosd sind p b =
      addBorder p.frameBorder p.switchSpacing
        ((p.frameBorder - p.switchSpacing + (colList p).getD 5 0) -
          p.thumbRadius)
        (placeCirc cosd sind p.frameBorder p.switchSpacing (colList p)
          p.thumbRadius p.thumbRotationAngle
          (placeOffsets p.frameBorder p.switchSpacing (colList p)
            (placeGrid p.frameBorder p.switchSpacing (colList p)
              (removeBorders b)))) := by
  unfold runFull
  rw [switch_placement_toMap]

theorem drawings_runFull (cosd sind : K → K) (p : Params K)
    (b : Board K) :
    (runFull cosd sind p b).drawings =
      (b.drawings.filter fun d => decide (d.comment ≠ marker)) ++
        borderSegments p.frameBorder p.switchSpacing
          ((p.frameBorder - p.switchSpacing + (colList p).getD 5 0) -
            p.thumbRadius) := by
  rw [runFull_eq, drawings_addBorder, drawings_placeCirc,
    drawings_placeOffsets, drawings_placeGrid, drawings_removeBorders]

theorem borderSegments_filter_tagged (fb ss ccy : K) :
    (borderSegments fb ss ccy).filter
      (fun d => decide (d.comment = marker)) = borderSegments fb ss ccy := by
  rw [List.filter_eq_self]
  intro d hd
  simp only [borderSegments, List.mem_cons, List.not_mem_nil, or_false]
    at hd
  rcases hd with rfl | rfl | rfl | rfl <;> exact decide_eq_true rfl

theorem borderSegments_length (fb ss ccy : K) :
    (borderSegments fb ss ccy).length = 4 := rfl

theorem borderSegments_widths (fb ss ccy : K) :
    (borderSegments fb ss ccy).map (fun d => d.width) =
      [0.15, 0.15, 0.15, 0.15] := rfl

theorem tagged_filter_runFull (cosd sind : K → K) (p : Params K)
    (b : Board K) :
    (runFull cosd sind p b).drawings.filter
        (fun d => decide (d.comment = marker)) =
      borderSegments p.frameBorder p.switchSpacing
        ((p.frameBorder - p.switchSpacing + (colList p).getD 5 0) -
          p.thumbRadius) := by
  rw [drawings_runFull, List.filter_append, List.filter_filter]
  have h1 : (b.drawings.filter fun d =>
      decide (d.comment = marker) && decide (d.comment ≠ marker)) = [] := by
    rw [List.filter_eq_nil_iff]
    intro d hd
    simp
  rw [h1, List.nil_append, borderSegments_filter_tagged]

end StageLemmas

/-! ### Lemmas for the corner-circle dictionary -/

section CircleLemmas

theorem lookupPos_dictInsert (m : List ((ℚ × ℚ) × Circle)) (c : Circle)
    (pnt : ℚ × ℚ) :
    lookupPos (dictInsert m c) pnt =
      if (c.cx, c.cy) = pnt then
        match lookupPos m pnt with
        | none => some c
        | some old => if c.r > old.r then some c else some old
      else lookupPos m pnt := by
  induction m with
  | nil =>
    by_cases hp : (c.cx, c.cy) = pnt
    · simp only [dictInsert, lookupPos, if_pos hp]
    · simp only [dictInsert, lookupPos, if_neg hp]
  | cons e rest ih =>
    obtain ⟨q, old⟩ := e
    by_cases hq : q = (c.cx, c.cy)
    · by_cases hro : c.r > old.r
      · have h1 : dictInsert ((q, old) :: rest) c = (q, c) :: rest := by
          simp only [dictInsert, if_pos hq, if_pos hro]
        rw [h1]
        by_cases hp : (c.cx, c.cy) = pnt
        · have hqp : q = pnt := hq.trans hp
          simp only [lookupPos, if_pos hqp, if_pos hp, if_pos hro]
        · have hqp : q ≠ pnt := fun he => hp (hq.symm.trans he)
          simp only [lookupPos, if_neg hqp, if_neg hp]
      · have h1 : dictInsert ((q, old) :: rest) c = (q, old) :: rest := by
          simp only [dictInsert, if_pos hq, if_neg hro]
        rw [h1]
        by_cases hp : (c.cx, c.cy) = pnt
        · have hqp : q = pnt := hq.trans hp
          simp only [lookupPos, if_pos hqp, if_pos hp, if_neg hro]
        · have hqp : q ≠ pnt := fun he => hp (hq.symm.trans he)
          simp only [lookupPos, if_neg hqp, if_neg hp]
    · have h1 : dictInsert ((q, old) :: rest) c =
          (q, old) :: dictInsert rest c := by
        simp only [dictInsert, if_neg hq]
      rw [h1]
      by_cases hqp : q = pnt
      · have hp : ¬((c.cx, c.cy) = pnt) := fun he => hq (hqp.trans he.symm)
        simp only [lookupPos, if_pos hqp, if_neg hp]
      · simp only [lookupPos, if_neg hqp, ih]

theorem keepLargest_append (l : List Circle) (c : Circle) :
    keepLargest (l ++ [c]) =
      match keepLargest l with
      | none => some c
      | some b => if c.r > b.r then some c else some b := by
  unfold keepLargest
  rw [List.foldl_append, List.foldl_cons, List.foldl_nil]

theorem dictFold_lookup (l : List Circle) (pnt : ℚ × ℚ) :
    lookupPos (l.foldl dictInsert []) pnt =
      keepLargest (l.filter fun c => decide ((c.cx, c.cy) = pnt)) := by
  induction l using List.reverseRecOn with
  | nil => rfl
  | append_singleton xs x ih =>
    rw [List.foldl_append, List.foldl_cons, List.foldl_nil,
      lookupPos_dictInsert, List.filter_append]
    by_cases hp : (x.cx, x.cy) = pnt
    · rw [if_pos hp]
      have hx : List.filter (fun c => decide ((c.cx, c.cy) = pnt)) [x] =
          [x] := by
        simp [hp]
      rw [hx, keepLargest_append, ih]
    · rw [if_neg hp]
      have hx : List.filter (fun c => decide ((c.cx, c.cy) = pnt)) [x] =
          [] := by
        simp [hp]
      rw [hx, List.append_nil, ih]

end CircleLemmas

/-! ### Run-level helper lemmas -/

section RunLemmas

variable {K : Type} [LinearOrderedField K]

theorem posOf_runFull_sw (cosd sind : K → K) (p : Params K) (b : Board K)
    (c r : ℕ) (hc : c < 6) (hr : r < 3)
    (h : b.hasRef (swRef (c * 3 + r + 1)) = true) :
    (runFull cosd sind p b).posOf (swRef (c * 3 + r + 1)) =
      some (p.frameBorder + (c : K) * p.switchSpacing + 40,
        -(p.frameBorder + (r : K) * p.switchSpacing +
            (colList p).getD c 0) + 120) := by
  rw [runFull_eq, posOf_addBorder,
    posOf_placeCirc_ne _ _ _ _ _ _ _ _ _
      (swRef_inj 21 (by omega) _ (by omega) (by omega))
      (dRef_ne_swRef 21 (by omega) _ (by omega))
      (swRef_inj 22 (by omega) _ (by omega) (by omega))
      (dRef_ne_swRef 22 (by omega) _ (by omega)),
    posOf_placeOffsets_ne _ _ _ _ _
      (swRef_inj 20 (by omega) _ (by omega) (by omega))
      (dRef_ne_swRef 20 (by omega) _ (by omega))
      (swRef_inj 19 (by omega) _ (by omega) (by omega))
      (dRef_ne_swRef 19 (by omega) _ (by omega))]
  have h1 : (removeBorders b).hasRef (swRef (c * 3 + r + 1)) = true := by
    rw [hasRef_removeBorders]
    exact h
  exact posOf_placeGrid_sw _ _ _ _ c r hc hr h1

theorem posOf_runFull_d (cosd sind : K → K) (p : Params K) (b : Board K)
    (c r : ℕ) (hc : c < 6) (hr : r < 3)
    (hsw : b.hasRef (swRef (c * 3 + r + 1)) = true)
    (hd : b.hasRef (dRef (c * 3 + r + 1)) = true) :
    (runFull cosd sind p b).posOf (dRef (c * 3 + r + 1)) =
      some (p.frameBorder + (c : K) * p.switchSpacing + 40,
        -(p.frameBorder + (r : K) * p.switchSpacing +
            (colList p).getD c 0) + 120 + 8) := by
  rw [runFull_eq, posOf_addBorder,
    posOf_placeCirc_ne _ _ _ _ _ _ _ _ _
      (Ne.symm (dRef_ne_swRef _ (by omega) 21 (by omega)))
      (dRef_inj 21 (by omega) _ (by omega) (by omega))
      (Ne.symm (dRef_ne_swRef _ (by omega) 22 (by omega)))
      (dRef_inj 22 (by omega) _ (by omega) (by omega)),
    posOf_placeOffsets_ne _ _ _ _ _
      (Ne.symm (dRef_ne_swRef _ (by omega) 20 (by omega)))
      (dRef_inj 20 (by omega) _ (by omega) (by omega))
      (Ne.symm (dRef_ne_swRef _ (by omega) 19 (by omega)))
      (dRef_inj 19 (by omega) _ (by omega) (by omega))]
  have h1 : (removeBorders b).hasRef (swRef (c * 3 + r + 1)) = true := by
    rw [hasRef_removeBorders]
    exact hsw
  have h2 : (removeBorders b).hasRef (dRef (c * 3 + r + 1)) = true := by
    rw [hasRef_removeBorders]
    exact hd
  exact posOf_placeGrid_d _ _ _ _ c r hc hr h1 h2

theorem orientOf_runFull_d (cosd sind : K → K) (p : Params K) (b : Board K)
    (c r : ℕ) (hc : c < 6) (hr : r < 3) :
    (runFull cosd sind p b).orientOf (dRef (c * 3 + r + 1)) =
      b.orientOf (dRef (c * 3 + r + 1)) := by
  rw [runFull_eq, orientOf_addBorder,
    orientOf_placeCirc_ne _ _ _ _ _ _ _ _ _
      (Ne.symm (dRef_ne_swRef _ (by omega) 21 (by omega)))
      (dRef_inj 21 (by omega) _ (by omega) (by omega))
      (Ne.symm (dRef_ne_swRef _ (by omega) 22 (by omega)))
      (dRef_inj 22 (by omega) _ (by omega) (by omega)),
    orientOf_placeOffsets, orientOf_placeGrid, orientOf_removeBorders]

end RunLemmas

/-! ### The claims -/

/-- C10: in `generate_corner_circles`, for every input list, when two
generated corner circles fall on exactly the same `(cx, cy)` position, the
one with the strictly larger radius is kept, and on an exact radius tie the
circle generated first is retained and the later one discarded: the
dictionary's entry at every position equals the fold that keeps the
incumbent unless the newcomer's radius is strictly larger, taken over the
candidates at that position in generation order; the returned list is the
dictionary's values. -/
theorem claimC10_corner_circle_dedup :
    ∀ (circles : List Circle) (grid_size radius_factor : ℚ)
      (pnt : ℚ × ℚ),
      lookupPos
          ((generatedCircles circles grid_size radius_factor).foldl
            dictInsert []) pnt =
        keepLargest
          ((generatedCircles circles grid_size radius_factor).filter
            fun c => decide ((c.cx, c.cy) = pnt)) ∧
      generate_corner_circles circles grid_size radius_factor =
        ((generatedCircles circles grid_size radius_factor).foldl
          dictInsert []).map Prod.snd :=
  fun circles grid_size radius_factor pnt =>
    ⟨dictFold_lookup (generatedCircles circles grid_size radius_factor) pnt,
      rfl⟩

/-- C9: a run removes exactly the drawings whose comment is the literal
marker string and appends the four fresh border segments; every drawing
with any other comment survives in place, whatever the parameters, the
trigonometric oracle and the starting board. -/
theorem claimC9_removes_only_tagged {K : Type} [LinearOrderedField K]
    (cosd sind : K → K) (p : Params K) (b : Board K) :
    (runFull cosd sind p b).drawings =
      (b.drawings.filter fun d => decide (d.comment ≠ marker)) ++
        borderSegments p.frameBorder p.switchSpacing
          ((p.frameBorder - p.switchSpacing + (colList p).getD 5 0) -
            p.thumbRadius) :=
  drawings_runFull cosd sind p b

/-- C6: for every k ≥ 1 and every initial board, k runs of the
orchestrator leave exactly 4 drawings tagged with the engine marker, each
of stroke width 0.15 mm: every run removes all previously tagged segments
and adds exactly 4 new ones. -/
theorem claimC6_border_idempotent {K : Type} [LinearOrderedField K]
    (cosd sind : K → K) (p : Params K) (b : Board K) (k : ℕ)
    (hk : 1 ≤ k) :
    (((runFull cosd sind p)^[k] b).drawings.filter
        (fun d => decide (d.comment = marker))).length = 4 ∧
    (((runFull cosd sind p)^[k] b).drawings.filter
        (fun d => decide (d.comment = marker))).map (fun d => d.width) =
      [0.15, 0.15, 0.15, 0.15] := by
  obtain ⟨j, rfl⟩ : ∃ j, k = j + 1 :=
    ⟨k - 1, (Nat.succ_pred_eq_of_pos hk).symm⟩
  rw [Function.iterate_succ_apply']
  constructor
  · rw [tagged_filter_runFull]
    exact borderSegments_length _ _ _
  · rw [tagged_filter_runFull]
    exact borderSegments_widths _ _ _

theorem claimC6_witness :
    (1 : ℕ) ≤ 1 ∧
    ((((runFull (fun _ : ℚ => 0) (fun _ => 0) truth)^[1]
          boardW).drawings.filter
        (fun d => decide (d.comment = marker))).length = 4 ∧
      (((runFull (fun _ : ℚ => 0) (fun _ => 0) truth)^[1]
            boardW).drawings.filter
          (fun d => decide (d.comment = marker))).map (fun d => d.width) =
        [0.15, 0.15, 0.15, 0.15]) :=
  ⟨by decide,
    claimC6_border_idempotent (fun _ : ℚ => 0) (fun _ => 0) truth boardW 1
      (by decide)⟩

/-- C2: for every column c < 6 and row r < 3, the grid switch numbered
c*3 + r + 1, when found on the board, is set to board-space position
(FrameBorder + c*SwitchSpacing + 40, -(FrameBorder + r*SwitchSpacing +
ColOffset c) + 120) in millimetres, the constants 40 and 120 being the
engine's fixed page offsets; with the repository's `truth` parameters
(SwitchSpacing 19.5, FrameBorder 5, Col0Offset 0) this puts SW1 at
(5 + 40, -5 + 120). -/
theorem claimC2_grid_switch_position {K : Type} [LinearOrderedField K]
    (cosd sind : K → K) (p : Params K) (b : Board K) (c r : ℕ)
    (hc : c < 6) (hr : r < 3)
    (h : b.hasRef (swRef (c * 3 + r + 1)) = true) :
    (runFull cosd sind p b).posOf (swRef (c * 3 + r + 1)) =
      some (p.frameBorder + (c : K) * p.switchSpacing + 40,
        -(p.frameBorder + (r : K) * p.switchSpacing +
            (colList p).getD c 0) + 120) :=
  posOf_runFull_sw cosd sind p b c r hc hr h

theorem claimC2_witness :
    boardW.hasRef (swRef (0 * 3 + 0 + 1)) = true ∧
    (runFull (fun _ : ℚ => 0) (fun _ => 0) truth boardW).posOf
        (swRef (0 * 3 + 0 + 1)) =
      some (truth.frameBorder + ((0 : ℕ) : ℚ) * truth.switchSpacing + 40,
        -(truth.frameBorder + ((0 : ℕ) : ℚ) * truth.switchSpacing +
            (colList truth).getD 0 0) + 120) :=
  ⟨rfl,
    claimC2_grid_switch_position (fun _ : ℚ => 0) (fun _ => 0) truth boardW
      0 0 (by decide) (by decide) rfl⟩

/-- C4: for every grid switch n = c*3 + r + 1 (c < 6, r < 3) whose switch
and diode footprints are both found, diode Dn is placed at the same x as
switch n with 8 mm added to the stored (y-flipped) coordinate — i.e. 8 mm
below the switch in design orientation — and no rotation is applied to it:
its orientation is whatever it was on the input board. -/
theorem claimC4_grid_diode {K : Type} [LinearOrderedField K]
    (cosd sind : K → K) (p : Params K) (b : Board K) (c r : ℕ)
    (hc : c < 6) (hr : r < 3)
    (hsw : b.hasRef (swRef (c * 3 + r + 1)) = true)
    (hd : b.hasRef (dRef (c * 3 + r + 1)) = true) :
    (runFull cosd sind p b).posOf (dRef (c * 3 + r + 1)) =
      some (p.frameBorder + (c : K) * p.switchSpacing + 40,
        -(p.frameBorder + (r : K) * p.switchSpacing +
            (colList p).getD c 0) + 120 + 8) ∧
    (runFull cosd sind p b).orientOf (dRef (c * 3 + r + 1)) =
      b.orientOf (dRef (c * 3 + r + 1)) :=
  ⟨posOf_runFull_d cosd sind p b c r hc hr hsw hd,
    orientOf_runFull_d cosd sind p b c r hc hr⟩

theorem claimC4_witness :
    boardW.hasRef (swRef (1 * 3 + 2 + 1)) = true ∧
    boardW.hasRef (dRef (1 * 3 + 2 + 1)) = true ∧
    ((runFull (fun _ : ℚ => 0) (fun _ => 0) truth boardW).posOf
        (dRef (1 * 3 + 2 + 1)) =
      some (truth.frameBorder + ((1 : ℕ) : ℚ) * truth.switchSpacing + 40,
        -(truth.frameBorder + ((2 : ℕ) : ℚ) * truth.switchSpacing +
            (colList truth).getD 1 0) + 120 + 8) ∧
    (runFull (fun _ : ℚ => 0) (fun _ => 0) truth boardW).orientOf
        (dRef (1 * 3 + 2 + 1)) =
      boardW.orientOf (dRef (1 * 3 + 2 + 1))) :=
  ⟨rfl, rfl,
    claimC4_grid_diode (fun _ : ℚ => 0) (fun _ => 0) truth boardW 1 2
      (by decide) (by decide) rfl rfl⟩

/-- C8: when SW5 is not on the board, every later grid switch (n ≥ 6) that
is found is still placed at its formula position, its diode (when found) is
still placed, and the four-segment tagged border is still created: a
missing component never aborts the run. -/
theorem claimC8_missing_component_skipped {K : Type}
    [LinearOrderedField K] (cosd sind : K → K) (p : Params K)
    (b : Board K) (c r : ℕ) (hc : c < 6) (hr : r < 3)
    (h6 : 6 ≤ c * 3 + r + 1) (h5 : b.hasRef (swRef 5) = false)
    (hsw : b.hasRef (swRef (c * 3 + r + 1)) = true)
    (hd : b.hasRef (dRef (c * 3 + r + 1)) = true) :
    (runFull cosd sind p b).posOf (swRef (c * 3 + r + 1)) =
      some (p.frameBorder + (c : K) * p.switchSpacing + 40,
        -(p.frameBorder + (r : K) * p.switchSpacing +
            (colList p).getD c 0) + 120) ∧
    (runFull cosd sind p b).posOf (dRef (c * 3 + r + 1)) =
      some (p.frameBorder + (c : K) * p.switchSpacing + 40,
        -(p.frameBorder + (r : K) * p.switchSpacing +
            (colList p).getD c 0) + 120 + 8) ∧
    (runFull cosd sind p b).drawings.filter
        (fun d => decide (d.comment = marker)) =
      borderSegments p.frameBorder p.switchSpacing
        ((p.frameBorder - p.switchSpacing + (colList p).getD 5 0) -
          p.thumbRadius) :=
  ⟨posOf_runFull_sw cosd sind p b c r hc hr hsw,
    posOf_runFull_d cosd sind p b c r hc hr hsw hd,
    tagged_filter_runFull cosd sind p b⟩

theorem claimC8_witness :
    boardW.hasRef (swRef 5) = false ∧
    boardW.hasRef (swRef (1 * 3 + 2 + 1)) = true ∧
    boardW.hasRef (dRef (1 * 3 + 2 + 1)) = true ∧
    ((runFull (fun _ : ℚ => 0) (fun _ => 0) truth boardW).posOf
        (swRef (1 * 3 + 2 + 1)) =
      some (truth.frameBorder + ((1 : ℕ) : ℚ) * truth.switchSpacing + 40,
        -(truth.frameBorder + ((2 : ℕ) : ℚ) * truth.switchSpacing +
            (colList truth).getD 1 0) + 120) ∧
    (runFull (fun _ : ℚ => 0) (fun _ => 0) truth boardW).posOf
        (dRef (1 * 3 + 2 + 1)) =
      some (truth.frameBorder + ((1 : ℕ) : ℚ) * truth.switchSpacing + 40,
        -(truth.frameBorder + ((2 : ℕ) : ℚ) * truth.switchSpacing +
            (colList truth).getD 1 0) + 120 + 8) ∧
    (runFull (fun _ : ℚ => 0) (fun _ => 0) truth boardW).drawings.filter
        (fun d => decide (d.comment = marker)) =
      borderSegments truth.frameBorder truth.switchSpacing
        ((truth.frameBorder - truth.switchSpacing +
            (colList truth).getD 5 0) - truth.thumbRadius)) :=
  ⟨rfl, rfl, rfl,
    claimC8_missing_component_skipped (fun _ : ℚ => 0) (fun _ => 0) truth
      boardW 1 2 (by decide) (by decide) (by decide) rfl rfl rfl⟩

/-- C5: with the circle centred one ThumbRadius below SW20's design
position, circular thumb switch i (i = 1 for SW21, i = 2 for SW22), when
found, is placed at design position (centerX + R·cos(90° + i·A),
centerY + R·sin(90° + i·A)) converted to board space (x unchanged, y
negated plus 120), and its orientation is set to exactly 90 + i·A degrees
(cosine and sine taken of the degree value converted to radians). -/
theorem claimC5_circular_switches (p : Params ℝ) (b : Board ℝ)
    (h21 : b.hasRef (swRef 21) = true)
    (h22 : b.hasRef (swRef 22) = true) :
    (runFull degCos degSin p b).posOf (swRef 21) =
      some ((p.frameBorder + 5 * p.switchSpacing + 40) +
          p.thumbRadius *
            Real.cos ((90 + p.thumbRotationAngle) * (Real.pi / 180)),
        -(((p.frameBorder - p.switchSpacing + (colList p).getD 5 0) -
              p.thumbRadius) +
            p.thumbRadius *
              Real.sin ((90 + p.thumbRotationAngle) * (Real.pi / 180))) +
          120) ∧
    (runFull degCos degSin p b).orientOf (swRef 21) =
      some (90 + p.thumbRotationAngle) ∧
    (runFull degCos degSin p b).posOf (swRef 22) =
      some ((p.frameBorder + 5 * p.switchSpacing + 40) +
          p.thumbRadius *
            Real.cos ((90 + 2 * p.thumbRotationAngle) * (Real.pi / 180)),
        -(((p.frameBorder - p.switchSpacing + (colList p).getD 5 0) -
              p.thumbRadius) +
            p.thumbRadius *
              Real.sin ((90 + 2 * p.thumbRotationAngle) *
                (Real.pi / 180))) + 120) ∧
    (runFull degCos degSin p b).orientOf (swRef 22) =
      some (90 + 2 * p.thumbRotationAngle) := by
  have hx21 : (placeOffsets p.frameBorder p.switchSpacing (colList p)
      (placeGrid p.frameBorder p.switchSpacing (colList p)
        (removeBorders b))).hasRef (swRef 21) = true := by
    rw [hasRef_placeOffsets, hasRef_placeGrid, hasRef_removeBorders]
    exact h21
  have hx22 : (placeOffsets p.frameBorder p.switchSpacing (colList p)
      (placeGrid p.frameBorder p.switchSpacing (colList p)
        (removeBorders b))).hasRef (swRef 22) = true := by
    rw [hasRef_placeOffsets, hasRef_placeGrid, hasRef_removeBorders]
    exact h22
  refine ⟨?_, ?_, ?_, ?_⟩
  · rw [runFull_eq, posOf_addBorder]
    exact posOf_placeCirc_sw21 degCos degSin _ _ _ _ _ _ hx21
  · rw [runFull_eq, orientOf_addBorder]
    exact orientOf_placeCirc_sw21 degCos degSin _ _ _ _ _ _ hx21
  · rw [runFull_eq, posOf_addBorder]
    exact posOf_placeCirc_sw22 degCos degSin _ _ _ _ _ _ hx22
  · rw [runFull_eq, orientOf_addBorder]
    exact orientOf_placeCirc_sw22 degCos degSin _ _ _ _ _ _ hx22

theorem claimC5_witness :
    boardWR.hasRef (swRef 21) = true ∧
    boardWR.hasRef (swRef 22) = true ∧
    ((runFull degCos degSin truthR boardWR).posOf (swRef 21) =
      some ((truthR.frameBorder + 5 * truthR.switchSpacing + 40) +
          truthR.thumbRadius *
            Real.cos ((90 + truthR.thumbRotationAngle) * (Real.pi / 180)),
        -(((truthR.frameBorder - truthR.switchSpacing +
              (colList truthR).getD 5 0) - truthR.thumbRadius) +
            truthR.thumbRadius *
              Real.sin ((90 + truthR.thumbRotationAngle) *
                (Real.pi / 180))) + 120) ∧
    (runFull degCos degSin truthR boardWR).orientOf (swRef 21) =
      some (90 + truthR.thumbRotationAngle) ∧
    (runFull degCos degSin truthR boardWR).posOf (swRef 22) =
      some ((truthR.frameBorder + 5 * truthR.switchSpacing + 40) +
          truthR.thumbRadius *
            Real.cos ((90 + 2 * truthR.thumbRotationAngle) *
              (Real.pi / 180)),
        -(((truthR.frameBorder - truthR.switchSpacing +
              (colList truthR).getD 5 0) - truthR.thumbRadius) +
            truthR.thumbRadius *
              Real.sin ((90 + 2 * truthR.thumbRotationAngle) *
                (Real.pi / 180))) + 120) ∧
    (runFull degCos degSin truthR boardWR).orientOf (swRef 22) =
      some (90 + 2 * truthR.thumbRotationAngle)) :=
  ⟨rfl, rfl, claimC5_circular_switches truthR boardWR rfl rfl⟩

/-- C7: each circularly placed diode (D21, D22), when its switch and itself
are found, sits at the switch's design position displaced by
8·(cos angle, sin angle) along the switch's own orientation angle, its
orientation equals that angle, and the Euclidean length of that
displacement is exactly 8 mm. -/
theorem claimC7_circular_diode_radial (p : Params ℝ) (b : Board ℝ)
    (h21 : b.hasRef (swRef 21) = true)
    (hd21 : b.hasRef (dRef 21) = true)
    (h22 : b.hasRef (swRef 22) = true)
    (hd22 : b.hasRef (dRef 22) = true) :
    (runFull degCos degSin p b).posOf (dRef 21) =
      some ((p.frameBorder + 5 * p.switchSpacing + 40) +
          p.thumbRadius *
            Real.cos ((90 + p.thumbRotationAngle) * (Real.pi / 180)) +
          8 * Real.cos ((90 + p.thumbRotationAngle) * (Real.pi / 180)),
        -(((p.frameBorder - p.switchSpacing + (colList p).getD 5 0) -
              p.thumbRadius) +
            p.thumbRadius *
              Real.sin ((90 + p.thumbRotationAngle) * (Real.pi / 180)) +
            8 * Real.sin ((90 + p.thumbRotationAngle) * (Real.pi / 180))) +
          120) ∧
    (runFull degCos degSin p b).orientOf (dRef 21) =
      some (90 + p.thumbRotationAngle) ∧
    Real.sqrt
        ((8 * Real.cos ((90 + p.thumbRotationAngle) * (Real.pi / 180))) ^ 2
          +
          (8 * Real.sin ((90 + p.thumbRotationAngle) * (Real.pi / 180))) ^
            2) = 8 ∧
    (runFull degCos degSin p b).posOf (dRef 22) =
      some ((p.frameBorder + 5 * p.switchSpacing + 40) +
          p.thumbRadius *
            Real.cos ((90 + 2 * p.thumbRotationAngle) * (Real.pi / 180)) +
          8 * Real.cos ((90 + 2 * p.thumbRotationAngle) * (Real.pi / 180)),
        -(((p.frameBorder - p.switchSpacing + (colList p).getD 5 0) -
              p.thumbRadius) +
            p.thumbRadius *
              Real.sin ((90 + 2 * p.thumbRotationAngle) *
                (Real.pi / 180)) +
            8 * Real.sin ((90 + 2 * p.thumbRotationAngle) *
              (Real.pi / 180))) + 120) ∧
    (runFull degCos degSin p b).orientOf (dRef 22) =
      some (90 + 2 * p.thumbRotationAngle) ∧
    Real.sqrt
        ((8 * Real.cos ((90 + 2 * p.thumbRotationAngle) *
            (Real.pi / 180))) ^ 2 +
          (8 * Real.sin ((90 + 2 * p.thumbRotationAngle) *
            (Real.pi / 180))) ^ 2) = 8 := by
  have key : ∀ θ : ℝ,
      Real.sqrt ((8 * Real.cos θ) ^ 2 + (8 * Real.sin θ) ^ 2) = 8 := by
    intro θ
    have h1 : (8 * Real.cos θ) ^ 2 + (8 * Real.sin θ) ^ 2 =
        64 * (Real.cos θ ^ 2 + Real.sin θ ^ 2) := by
      ring
    rw [h1, Real.cos_sq_add_sin_sq, mul_one,
      show (64 : ℝ) = 8 ^ 2 by norm_num,
      Real.sqrt_sq (by norm_num : (0 : ℝ) ≤ 8)]
  have hx21 : (placeOffsets p.frameBorder p.switchSpacing (colList p)
      (placeGrid p.frameBorder p.switchSpacing (colList p)
        (removeBorders b))).hasRef (swRef 21) = true := by
    rw [hasRef_placeOffsets, hasRef_placeGrid, hasRef_removeBorders]
    exact h21
  have hxd21 : (placeOffsets p.frameBorder p.switchSpacing (colList p)
      (placeGrid p.frameBorder p.switchSpacing (colList p)
        (removeBorders b))).hasRef (dRef 21) = true := by
    rw [hasRef_placeOffsets, hasRef_placeGrid, hasRef_removeBorders]
    exact hd21
  have hx22 : (placeOffsets p.frameBorder p.switchSpacing (colList p)
      (placeGrid p.frameBorder p.switchSpacing (colList p)
        (removeBorders b))).hasRef (swRef 22) = true := by
    rw [hasRef_placeOffsets, hasRef_placeGrid, hasRef_removeBorders]
    exact h22
  have hxd22 : (placeOffsets p.frameBorder p.switchSpacing (colList p)
      (placeGrid p.frameBorder p.switchSpacing (colList p)
        (removeBorders b))).hasRef (dRef 22) = true := by
    rw [hasRef_placeOffsets, hasRef_placeGrid, hasRef_removeBorders]
    exact hd22
  refine ⟨?_, ?_, key _, ?_, ?_, key _⟩
  · rw [runFull_eq, posOf_addBorder]
    exact posOf_placeCirc_d21 degCos degSin _ _ _ _ _ _ hx21 hxd21
  · rw [runFull_eq, orientOf_addBorder]
    exact orientOf_placeCirc_d21 degCos degSin _ _ _ _ _ _ hx21 hxd21
  · rw [runFull_eq, posOf_addBorder]
    exact posOf_placeCirc_d22 degCos degSin _ _ _ _ _ _ hx22 hxd22
  · rw [runFull_eq, orientOf_addBorder]
    exact orientOf_placeCirc_d22 degCos degSin _ _ _ _ _ _ hx22 hxd22

theorem claimC7_witness :
    boardWR.hasRef (swRef 21) = true ∧
    boardWR.hasRef (dRef 21) = true ∧
    boardWR.hasRef (swRef 22) = true ∧
    boardWR.hasRef (dRef 22) = true ∧
    ((runFull degCos degSin truthR boardWR).orientOf (dRef 21) =
      some (90 + truthR.thumbRotationAngle) ∧
    Real.sqrt
        ((8 * Real.cos ((90 + truthR.thumbRotationAngle) *
            (Real.pi / 180))) ^ 2 +
          (8 * Real.sin ((90 + truthR.thumbRotationAngle) *
            (Real.pi / 180))) ^ 2) = 8 ∧
    (runFull degCos degSin truthR boardWR).orientOf (dRef 22) =
      some (90 + 2 * truthR.thumbRotationAngle)) :=
  ⟨rfl, rfl, rfl, rfl,
    (claimC7_circular_diode_radial truthR boardWR rfl rfl rfl rfl).2.1,
    (claimC7_circular_diode_radial truthR boardWR rfl rfl rfl rfl).2.2.1,
    (claimC7_circular_diode_radial truthR boardWR rfl rfl rfl rfl).2.2.2.2.1⟩

/-- C1 as stated is false on the code: with every parameter but
`ThumbRadius` present, the run aborts at the `ThumbRadius` read (line 134)
only after the previously tagged border segment has been removed and the
grid placement has mutated the board — here SW1 has already been moved to
(45, 115) and the tagged drawing is gone at the moment the error
propagates. -/
theorem claimC1_counterexample :
    (switch_placement (fun _ : ℚ => 0) (fun _ => 0) pmNoThumbRadius
        boardC1).2 = some "ThumbRadius" ∧
    (switch_placement (fun _ : ℚ => 0) (fun _ => 0) pmNoThumbRadius
        boardC1).1.posOf (swRef 1) = some (45, 115) ∧
    (switch_placement (fun _ : ℚ => 0) (fun _ => 0) pmNoThumbRadius
        boardC1).1.drawings = [] := by
  have h1 : (switch_placement (fun _ : ℚ => 0) (fun _ => 0)
      pmNoThumbRadius boardC1).1 =
      placeOffsets truth.frameBorder truth.switchSpacing (colList truth)
        (placeGrid truth.frameBorder truth.switchSpacing (colList truth)
          (removeBorders boardC1)) := rfl
  refine ⟨rfl, ?_, ?_⟩
  · rw [h1, posOf_placeOffsets_ne _ _ _ _ _ (by decide) (by decide)
      (by decide) (by decide)]
    have h2 : (removeBorders boardC1).hasRef (swRef (0 * 3 + 0 + 1)) =
        true := rfl
    have h3 := posOf_placeGrid_sw truth.frameBorder truth.switchSpacing
      (colList truth) (removeBorders boardC1) 0 0 (by norm_num)
      (by norm_num) h2
    have e1 : swRef (0 * 3 + 0 + 1) = swRef 1 := rfl
    rw [e1] at h3
    rw [h3]
    norm_num [truth, colList, List.getD_cons_zero]
  · rw [h1, drawings_placeOffsets, drawings_placeGrid,
      drawings_removeBorders]
    rfl

/-- C1 (amended): a missing required parameter makes the run abort at that
parameter's read with no new border segment added at that moment — on any
abort the board's drawings are exactly the input drawings with all
previously tagged segments removed — but the removal of previously tagged
segments precedes every parameter read, and a parameter read late (such as
`ThumbRadius`) aborts only after the grid and offset placements have
already been applied. -/
theorem claimC1_missing_param_board_state {K : Type}
    [LinearOrderedField K] (cosd sind : K → K) (pm : String → Option K)
    (b : Board K) (e : String)
    (h : (switch_placement cosd sind pm b).2 = some e) :
    ((switch_placement cosd sind pm b).1).drawings =
      b.drawings.filter fun d => decide (d.comment ≠ marker) := by
  unfold switch_placement at h ⊢
  cases h0 : pm "FrameBorder" with
  | none =>
    simp only [h0] at h ⊢
    rfl
  | some fb =>
  simp only [h0] at h ⊢
  cases h1 : pm "SwitchSpacing" with
  | none =>
    simp only [h1] at h ⊢
    rfl
  | some ss =>
  simp only [h1] at h ⊢
  cases h2 : pm "Col0Offset" with
  | none =>
    simp only [h2] at h ⊢
    rfl
  | some co0 =>
  simp only [h2] at h ⊢
  cases h3 : pm "Col1Offset" with
  | none =>
    simp only [h3] at h ⊢
    rfl
  | some co1 =>
  simp only [h3] at h ⊢
  cases h4 : pm "Col2Offset" with
  | none =>
    simp only [h4] at h ⊢
    rfl
  | some co2 =>
  simp only [h4] at h ⊢
  cases h5 : pm "Col3Offset" with
  | none =>
    simp only [h5] at h ⊢
    rfl
  | some co3 =>
  simp only [h5] at h ⊢
  cases h6 : pm "Col4Offset" with
  | none =>
    simp only [h6] at h ⊢
    rfl
  | some co4 =>
  simp only [h6] at h ⊢
  cases h7 : pm "Col5Offset" with
  | none =>
    simp only [h7] at h ⊢
    rfl
  | some co5 =>
  simp only [h7] at h ⊢
  cases h8 : pm "ThumbRadius" with
  | none =>
    simp only [h8] at h ⊢
    rw [drawings_placeOffsets, drawings_placeGrid]
    rfl
  | some R =>
  simp only [h8] at h ⊢
  cases h9 : pm "ThumbRotationAngle" with
  | none =>
    simp only [h9] at h ⊢
    rw [drawings_placeOffsets, drawings_placeGrid]
    rfl
  | some A =>
  simp only [h9] at h
  exact Option.noConfusion h

theorem claimC1_witness :
    (switch_placement (fun _ : ℚ => 0) (fun _ => 0) pmNoThumbRadius
        boardC1).2 = some "ThumbRadius" ∧
    ((switch_placement (fun _ : ℚ => 0) (fun _ => 0) pmNoThumbRadius
        boardC1).1).drawings =
      boardC1.drawings.filter fun d => decide (d.comment ≠ marker) :=
  ⟨rfl,
    claimC1_missing_param_board_state (fun _ : ℚ => 0) (fun _ => 0)
      pmNoThumbRadius boardC1 "ThumbRadius" rfl⟩

/-- C3 fails on the code: the offset thumb diodes D19 and D20 are not
placed 8 mm below their switches.  The source adds
`pcbnew.ToMM(diode_offset)` — the mm constant 8 divided again by 10^6 —
to the stored y, so with the `truth` parameters D20 lands at
(142.5, 125.5 + 8/1000000) and not at (142.5, 125.5 + 8) as the 8 mm rule
used for the grid diodes (and the script's own log line) would demand;
likewise D19 at x = 123. -/
theorem claimC3_code_evaluation :
    (runFull (fun _ : ℚ => 0) (fun _ => 0) truth boardC3).posOf
        (dRef 20) = some (142.5, 125.5 + 8 / 1000000) ∧
    (runFull (fun _ : ℚ => 0) (fun _ => 0) truth boardC3).posOf
        (dRef 20) ≠ some (142.5, 125.5 + 8) ∧
    (runFull (fun _ : ℚ => 0) (fun _ => 0) truth boardC3).posOf
        (dRef 19) = some (123, 125.5 + 8 / 1000000) ∧
    (runFull (fun _ : ℚ => 0) (fun _ => 0) truth boardC3).posOf
        (dRef 19) ≠ some (123, 125.5 + 8) := by
  have hsw20 : (placeGrid truth.frameBorder truth.switchSpacing
      (colList truth) (removeBorders boardC3)).hasRef (swRef 20) =
      true := by
    rw [hasRef_placeGrid, hasRef_removeBorders]
    rfl
  have hd20 : (placeGrid truth.frameBorder truth.switchSpacing
      (colList truth) (removeBorders boardC3)).hasRef (dRef 20) =
      true := by
    rw [hasRef_placeGrid, hasRef_removeBorders]
    rfl
  have hsw19 : (placeGrid truth.frameBorder truth.switchSpacing
      (colList truth) (removeBorders boardC3)).hasRef (swRef 19) =
      true := by
    rw [hasRef_placeGrid, hasRef_removeBorders]
    rfl
  have hd19 : (placeGrid truth.frameBorder truth.switchSpacing
      (colList truth) (removeBorders boardC3)).hasRef (dRef 19) =
      true := by
    rw [hasRef_placeGrid, hasRef_removeBorders]
    rfl
  have h20 : (runFull (fun _ : ℚ => 0) (fun _ => 0) truth
      boardC3).posOf (dRef 20) =
      some (truth.frameBorder + 5 * truth.switchSpacing + 40,
        -(truth.frameBorder - truth.switchSpacing +
            (colList truth).getD 5 0) + 120 + pcbnew_ToMM 8) := by
    rw [runFull_eq, posOf_addBorder,
      posOf_placeCirc_ne _ _ _ _ _ _ _ _ _ (by decide) (by decide)
        (by decide) (by decide)]
    exact posOf_placeOffsets_d20 _ _ _ _ hsw20 hd20
  have h19 : (runFull (fun _ : ℚ => 0) (fun _ => 0) truth
      boardC3).posOf (dRef 19) =
      some (truth.frameBorder + 4 * truth.switchSpacing + 40,
        -(truth.frameBorder - truth.switchSpacing +
            (colList truth).getD 5 0) + 120 + pcbnew_ToMM 8) := by
    rw [runFull_eq, posOf_addBorder,
      posOf_placeCirc_ne _ _ _ _ _ _ _ _ _ (by decide) (by decide)
        (by decide) (by decide)]
    exact posOf_placeOffsets_d19 _ _ _ _ hsw19 hd19
  refine ⟨?_, ?_, ?_, ?_⟩
  · rw [h20]
    norm_num [truth, colList, pcbnew_ToMM, List.getD_cons_succ,
      List.getD_cons_zero]
  · rw [h20]
    intro hcon
    rw [Option.some.injEq, Prod.mk.injEq] at hcon
    have hy := hcon.2
    norm_num [truth, colList, pcbnew_ToMM, List.getD_cons_succ,
      List.getD_cons_zero] at hy
  · rw [h19]
    norm_num [truth, colList, pcbnew_ToMM, List.getD_cons_succ,
      List.getD_cons_zero]
  · rw [h19]
    intro hcon
    rw [Option.some.injEq, Prod.mk.injEq] at hcon
    have hy := hcon.2
    norm_num [truth, colList, pcbnew_ToMM, List.getD_cons_succ,
      List.getD_cons_zero] at hy

end TDKeys